import Mathlib

/-!
Verification development for the award-pynder repository: five funding-agency
adapters (Mellon, NIH, NSF, Sloan, Templeton) that retrieve award records and
normalize them into one canonical tabular schema.

The embedding models the tabular container (pandas) by association-list rows,
the external date parser (dateutil) restricted to ISO-8601 calendar dates, and
each adapter's request/response cycle by explicit "remote" inputs.  All
definitions are executable.
-/

/-- Python exception values surfaced by the modelled code paths. -/
inductive PyErr where
  | valueError (msg : String)
  | keyError (k : String)
  | nameError (n : String)
  | parseError
  | transport (code : Nat)
deriving DecidableEq, Repr

/-- One cell of a table: the scalar value kinds the adapters put into frames.
`Cell.none` stands for both Python `None` and a missing (NaN) entry. -/
inductive Cell where
  | none
  | str (s : String)
  | int (n : Int)
  | float (x : Rat)
deriving DecidableEq, Repr

/-- A row is a finite mapping from column names to cells, in insertion order,
mirroring a Python dict of scalars. -/
abbrev Row := List (String × Cell)

/-- Reading a column of a row; a missing key reads as NaN (`Cell.none`),
matching how pandas aligns rows built from dicts with missing keys. -/
def Row.get (r : Row) (c : String) : Cell :=
  match r.find? (fun kv => kv.1 == c) with
  | some kv => kv.2
  | Option.none => Cell.none

/-- Writing a column of a row: replace in place when present, append when
absent (Python dict assignment order semantics). -/
def Row.set (r : Row) (c : String) (v : Cell) : Row :=
  if r.any (fun kv => kv.1 == c) then
    r.map (fun kv => if kv.1 == c then (kv.1, v) else kv)
  else r ++ [(c, v)]

/-- The keys of a row, in order. -/
def Row.keys (r : Row) : List String := r.map (fun kv => kv.1)

/-- A data frame: an ordered column list plus a list of rows.  The positional
row index of pandas is the list position (all adapter paths end in
`ignore_index=True` or `reset_index(drop=True)`, so indices are positional). -/
structure DataFrame where
  cols : List String
  rows : List Row
deriving DecidableEq, Repr

/-- `ALL_DATASET_FIELDS` from `sources/base.py`: the class-variable values of
`DatasetFields` in declaration order. -/
def ALL_DATASET_FIELDS : List String :=
  ["institution", "pi", "year", "start", "end", "program", "amount",
   "id", "title", "abstract", "query", "source"]

/-- Adding a name to a column list if not already present (the effect of
assigning a new column). -/
def addCol (cols : List String) (c : String) : List String :=
  if c ∈ cols then cols else cols ++ [c]

/-- `df[c] = scalar`: assign a constant column. -/
def DataFrame.setConst (df : DataFrame) (c : String) (v : Cell) : DataFrame :=
  ⟨addCol df.cols c, df.rows.map (fun r => r.set c v)⟩

/-- `df[tgt] = df[src].apply(f)`: apply a fallible cell function to a source
column, writing the target column.  Accessing a missing source column raises
`KeyError`, as in pandas; an exception in `f` propagates. -/
def DataFrame.applyCol (df : DataFrame) (tgt src : String)
    (f : Cell → Except PyErr Cell) : Except PyErr DataFrame :=
  if src ∈ df.cols then do
    let rows ← df.rows.mapM (fun r => do
      let v ← f (r.get src)
      pure (r.set tgt v))
    pure ⟨addCol df.cols tgt, rows⟩
  else .error (.keyError src)

/-- `df[tgt] = df[c1] + " " + df[c2]` on string columns (NSF builds the `pi`
name this way); missing columns raise `KeyError`. -/
def DataFrame.combineStrCols (df : DataFrame) (tgt c1 c2 : String) :
    Except PyErr DataFrame :=
  if c1 ∈ df.cols ∧ c2 ∈ df.cols then
    let rows := df.rows.map (fun r =>
      let v := match r.get c1, r.get c2 with
        | .str a, .str b => Cell.str (a ++ " " ++ b)
        | _, _ => Cell.none
      r.set tgt v)
    .ok ⟨addCol df.cols tgt, rows⟩
  else .error (.keyError c1)

/-- `df.drop(columns=cs)`. -/
def DataFrame.dropCols (df : DataFrame) (cs : List String) : DataFrame :=
  ⟨df.cols.filter (fun c => !(cs.contains c)),
   df.rows.map (fun r => r.filter (fun kv => !(cs.contains kv.1)))⟩

/-- `df.rename(columns=m)`: rename columns by the mapping, leaving unmapped
names alone. -/
def DataFrame.rename (df : DataFrame) (m : List (String × String)) : DataFrame :=
  let rn := fun (c : String) =>
    match m.find? (fun kv => kv.1 == c) with
    | some kv => kv.2
    | Option.none => c
  ⟨df.cols.map rn, df.rows.map (fun r => r.map (fun kv => (rn kv.1, kv.2)))⟩

/-- `df[cs]`: select and reorder columns; a requested column that is absent
raises `KeyError`, as in pandas. -/
def DataFrame.select (df : DataFrame) (cs : List String) :
    Except PyErr DataFrame :=
  if cs.all (fun c => df.cols.contains c) then
    .ok ⟨cs, df.rows.map (fun r => cs.map (fun c => (c, r.get c)))⟩
  else .error (.keyError "column not found")

/-- Column union in order of first appearance (pandas `concat` column
alignment; for identical column lists this is that list). -/
def colsUnion (ls : List (List String)) : List String :=
  ls.foldl (fun acc cs => acc ++ cs.filter (fun c => !(acc.contains c))) []

/-- `pd.concat(objs, ignore_index=True)` where `objs` may contain `None`
entries: pandas silently drops `None` members, raises `ValueError` when
nothing is left, and otherwise aligns columns by name (missing entries NaN)
with a fresh positional index. -/
def pd_concatO (dfs : List (Option DataFrame)) : Except PyErr DataFrame :=
  let ds := dfs.filterMap id
  match ds with
  | [] => .error (.valueError "No objects to concatenate")
  | _ =>
    let cols := colsUnion (ds.map (fun d => d.cols))
    .ok ⟨cols, ds.flatMap (fun d =>
      d.rows.map (fun r => cols.map (fun c => (c, r.get c))))⟩

/-- `pd.concat` over a plain frame list. -/
def pd_concat (dfs : List DataFrame) : Except PyErr DataFrame :=
  pd_concatO (dfs.map some)

/-- Kernel of `drop_duplicates(subset=key)`: keep each row whose key cell has
not been seen before, scanning front to back. -/
def dedupByAux (key : String) : List Row → List Cell → List Row
  | [], _ => []
  | r :: rs, seen =>
    let v := r.get key
    if v ∈ seen then dedupByAux key rs seen
    else r :: dedupByAux key rs (v :: seen)

/-- `df.drop_duplicates(subset=key)` followed by `reset_index(drop=True)`:
keep the first occurrence of each key value; the resulting index is the list
position, sequential with no gaps. -/
def DataFrame.dropDuplicatesBy (df : DataFrame) (key : String) : DataFrame :=
  ⟨df.cols, dedupByAux key df.rows []⟩

/-- Comparison used by the year post-filters: a pandas `>=` test against an
integer on a numeric cell; NaN compares false. -/
def cellGeInt (c : Cell) (n : Int) : Bool :=
  match c with
  | .int m => n ≤ m
  | .float x => (n : Rat) ≤ x
  | _ => false

/-- Dual comparison for the `<=` filters. -/
def cellLeInt (c : Cell) (n : Int) : Bool :=
  match c with
  | .int m => m ≤ n
  | .float x => x ≤ (n : Rat)
  | _ => false

/-- `df[df[c] >= n]`: boolean-mask row filter; pandas raises `KeyError` when
the column is absent. -/
def DataFrame.filterGeInt (df : DataFrame) (c : String) (n : Int) :
    Except PyErr DataFrame :=
  if c ∈ df.cols then .ok ⟨df.cols, df.rows.filter (fun r => cellGeInt (r.get c) n)⟩
  else .error (.keyError c)

/-- `df[df[c] <= n]`. -/
def DataFrame.filterLeInt (df : DataFrame) (c : String) (n : Int) :
    Except PyErr DataFrame :=
  if c ∈ df.cols then .ok ⟨df.cols, df.rows.filter (fun r => cellLeInt (r.get c) n)⟩
  else .error (.keyError c)

/-- `pd.DataFrame(list_of_dicts)`: columns are the union of the dict keys in
order of first appearance. -/
def buildDf (rows : List Row) : DataFrame :=
  ⟨colsUnion (rows.map Row.keys), rows⟩

/-- `pd.DataFrame(columns=cs)`: an empty frame with the given columns. -/
def emptyDf (cs : List String) : DataFrame := ⟨cs, []⟩

/-- `range(0, stop, step)` as a list, for positive step (the offset loops of
Mellon, NIH and Sloan). -/
def rangeStep (stop step : Nat) : List Nat :=
  (List.range ((stop + step - 1) / step)).map (fun k => k * step)

/-! ## Dates

The external collaborators (Python `datetime.date.isoformat` and the
permissive `dateutil` parser) are modelled on the input shapes the adapters
actually produce: ISO-8601 calendar date strings.  Digit printing and parsing
are fuel-free structural recursions so every definition evaluates inside
`decide`. -/

/-- A Python `datetime`/`date` value, restricted to its calendar-date part
(the only part the adapters read: `.year` and `.date().isoformat()`). -/
structure PyDate where
  year : Nat
  month : Nat
  day : Nat
deriving DecidableEq, Repr

/-- A value Python could actually hold in a `datetime` object: the month and
day bounds `datetime` enforces on construction. -/
def PyDate.Valid (d : PyDate) : Prop :=
  1 ≤ d.month ∧ d.month ≤ 12 ∧ 1 ≤ d.day ∧ d.day ≤ 31

instance (d : PyDate) : Decidable d.Valid := by
  unfold PyDate.Valid
  infer_instance

/-- Big-endian decimal digits of `n`, with explicit fuel (`fuel ≥ n` suffices;
`n = 0` prints no digits, zero-padding supplies them). -/
def digitsBEAux : Nat → Nat → List Char
  | 0, _ => []
  | fuel + 1, n =>
    if n = 0 then []
    else digitsBEAux fuel (n / 10) ++ [Nat.digitChar (n % 10)]

/-- Big-endian decimal digit characters of a natural number. -/
def natDigitsBE (n : Nat) : List Char := digitsBEAux n n

/-- Left-pad a character list with zeros to width `w` (`%0wd`). -/
def padZeros (w : Nat) (cs : List Char) : List Char :=
  List.replicate (w - cs.length) '0' ++ cs

/-- `date.isoformat()`: `YYYY-MM-DD` with zero padding. -/
def PyDate.isoformat (d : PyDate) : String :=
  ⟨padZeros 4 (natDigitsBE d.year) ++ '-' ::
   (padZeros 2 (natDigitsBE d.month) ++ '-' :: padZeros 2 (natDigitsBE d.day))⟩

/-- The numeric value of one decimal digit character. -/
def charDigit? (c : Char) : Option Nat :=
  if c.isDigit then some (c.toNat - 48) else Option.none

/-- One step of reading a big-endian digit string. -/
def digitsFold (acc : Option Nat) (c : Char) : Option Nat :=
  match acc, charDigit? c with
  | some a, some d => some (a * 10 + d)
  | _, _ => Option.none

/-- Value of a nonempty big-endian digit-character list. -/
def digitsVal? (cs : List Char) : Option Nat :=
  match cs with
  | [] => Option.none
  | _ => cs.foldl digitsFold (some 0)

/-- Split a character list at dashes. -/
def splitDash : List Char → List (List Char)
  | [] => [[]]
  | c :: cs =>
    if c = '-' then [] :: splitDash cs
    else
      match splitDash cs with
      | [] => [[c]]
      | g :: gs => (c :: g) :: gs

/-- Parse an ISO-8601 calendar date `YYYY-MM-DD`, enforcing the month/day
bounds a real parser enforces. -/
def parseISODate (s : String) : Option PyDate :=
  match splitDash s.data with
  | [ys, ms, ds] =>
    match digitsVal? ys, digitsVal? ms, digitsVal? ds with
    | some y, some m, some d =>
      if 1 ≤ m ∧ m ≤ 12 ∧ 1 ≤ d ∧ d ≤ 31 then some ⟨y, m, d⟩ else Option.none
    | _, _, _ => Option.none
  | _ => Option.none

/-- Modelled from the external `dateutil.parser.parse` collaborator,
restricted to the ISO calendar-date strings the adapters feed it (on an
ISO date string dateutil returns exactly that date); an unparseable string
raises. -/
def dateutil_parse (s : String) : Except PyErr PyDate :=
  match parseISODate s with
  | some d => .ok d
  | Option.none => .error .parseError

/-- The `str | datetime | None` input type of the base-class date helpers. -/
inductive DtInput where
  | none
  | str (s : String)
  | dt (d : PyDate)
deriving DecidableEq, Repr

/-- The two `fmt` granularities of `_format_date_for_pynder_standard`. -/
inductive DateFmt where
  | year
  | date
deriving DecidableEq, Repr

/-- The `str | int | None` result type of the date formatter. -/
inductive FormatOut where
  | none
  | int (n : Nat)
  | str (s : String)
deriving DecidableEq, Repr

namespace DataSource

/-- `DataSource._parse_datetime` from `sources/base.py`: parse a string,
pass a datetime through. -/
def parse_datetime (dt : DtInput) : Except PyErr PyDate :=
  match dt with
  | .str s => dateutil_parse s
  | .dt d => .ok d
  | .none => .error .parseError

/-- `DataSource._format_date_for_pynder_standard` from `sources/base.py`:
`None` maps to `None`; a string is parsed with dateutil; `fmt="year"` yields
the integer year, `fmt="date"` the ISO date string of the date part. -/
def format_date_for_pynder_standard (dt : DtInput) (fmt : DateFmt) :
    Except PyErr FormatOut :=
  match dt with
  | .none => .ok .none
  | .str s => do
    let d ← dateutil_parse s
    match fmt with
    | .year => pure (.int d.year)
    | .date => pure (.str d.isoformat)
  | .dt d =>
    match fmt with
    | .year => .ok (.int d.year)
    | .date => .ok (.str d.isoformat)

end DataSource

/-- View a cell as an argument to the date helpers, as a pandas
`Series.apply` hands it over: `None`/NaN is Python `None`, a string is a
string; a numeric cell would crash inside the formatter (`AttributeError`
reaching for `.year`), modelled as an exception. -/
def cellToDtInput (c : Cell) : Except PyErr DtInput :=
  match c with
  | .none => .ok .none
  | .str s => .ok (.str s)
  | _ => .error (.valueError "not a date value")

/-- Store a formatter result back into a cell. -/
def formatOutToCell (o : FormatOut) : Cell :=
  match o with
  | .none => .none
  | .int n => .int n
  | .str s => .str s

/-- The cell-level function of `col.apply(DataSource._format_date_for_pynder_standard, fmt=...)`. -/
def dateApplyCell (fmt : DateFmt) (c : Cell) : Except PyErr Cell := do
  let x ← cellToDtInput c
  let o ← DataSource.format_date_for_pynder_standard x fmt
  pure (formatOutToCell o)

/-- A `query` argument as a constant column cell. -/
def optStrCell (q : Option String) : Cell :=
  match q with
  | some s => .str s
  | Option.none => .none

/-! ## Python object heap

`Mellon._format_query_params`, `Mellon._get_funded_amount_for_grant` and
`NIH._format_query` build per-call parameter dicts by `deepcopy`-ing
module-level template dicts and then assigning into the copy.  To settle the
frame claim (the shared templates are never mutated) the dicts are modelled
with explicit object identity: nested dicts are heap references, assignment
mutates the referenced dict in place, and `deepcopy` allocates fresh
addresses recursively. -/

/-- A Python value as stored in a dict entry: scalars, lists of scalars
(the template lists are never mutated in place, only rebound, so lists can
be values), and references to heap-allocated dicts. -/
inductive PyVal where
  | none
  | int (n : Int)
  | str (s : String)
  | bool (b : Bool)
  | list (xs : List PyVal)
  | ref (a : Nat)

/-- A Python dict: keys to values in insertion order. -/
abbrev PyDict := List (String × PyVal)

/-- `d[k] = v`: replace in place or append. -/
def PyDict.set (d : PyDict) (k : String) (v : PyVal) : PyDict :=
  if d.any (fun e => e.1 == k) then
    d.map (fun e => if e.1 == k then (k, v) else e)
  else d ++ [(k, v)]

/-- `d[k]` with `None` default (all modelled accesses hit present keys). -/
def PyDict.get (d : PyDict) (k : String) : PyVal :=
  match d.find? (fun e => e.1 == k) with
  | some e => e.2
  | Option.none => PyVal.none

/-- The heap: an allocation counter and a store of dict objects. -/
structure PyHeap where
  next : Nat
  mem : List (Nat × PyDict)

/-- First binding of an address in a store trace (later writes shadow
earlier bindings). -/
def memLookup : List (Nat × PyDict) → Nat → PyDict
  | [], _ => []
  | (b, d) :: rest, a => if b == a then d else memLookup rest a

/-- Dereference a dict address. -/
def PyHeap.lookup (h : PyHeap) (a : Nat) : PyDict :=
  memLookup h.mem a

/-- In-place update of one key of the dict object at `a`, modelled as a
store trace: the updated dict shadows the previous binding of `a` (lookup
takes the most recent binding, so this is observationally the in-place
mutation of Python). -/
def PyHeap.write (h : PyHeap) (a : Nat) (k : String) (v : PyVal) : PyHeap :=
  { h with mem := (a, (h.lookup a).set k v) :: h.mem }

/-- Allocate a fresh dict object. -/
def PyHeap.alloc (h : PyHeap) (d : PyDict) : PyHeap × Nat :=
  (⟨h.next + 1, (h.next, d) :: h.mem⟩, h.next)

/-- Copy each entry value of a dict with the supplied value-copier, threading
the heap. -/
def dcEntriesWith (f : PyHeap → PyVal → PyHeap × PyVal) :
    PyHeap → PyDict → PyHeap × PyDict
  | h, [] => (h, [])
  | h, (k, v) :: rest =>
    let (h1, v1) := f h v
    let (h2, r1) := dcEntriesWith f h1 rest
    (h2, (k, v1) :: r1)

/-- `copy.deepcopy` on a value, with fuel bounding the nesting depth (the
template dicts nest at most four deep; fuel 5 is exact on them): scalars and
scalar lists copy by value, a dict reference allocates a fresh dict whose
entries are deep copies. -/
def dcVal : Nat → PyHeap → PyVal → PyHeap × PyVal
  | 0, h, v => (h, v)
  | fuel + 1, h, v =>
    match v with
    | .ref a =>
      let (h1, d) := dcEntriesWith (dcVal fuel) h (h.lookup a)
      let (h2, b) := h1.alloc d
      (h2, .ref b)
    | other => (h, other)

/-- Read the dict reference stored under `k` in the dict at `p` (used to
navigate `params["variables"]`, `params["criteria"]`, ...). -/
def PyHeap.deref (h : PyHeap) (p : Nat) (k : String) : Nat :=
  match (h.lookup p).get k with
  | .ref a => a
  | _ => 0

/-! ### Mellon templates (`sources/mellon.py` module level) -/

/-- The GraphQL bulk statement text; a constant string the code never
inspects, so its exact text is elided. -/
def mellonBulkQueryStatement : String := "GrantFilterQuery GraphQL statement"

/-- The GraphQL single-grant statement text; likewise never inspected. -/
def mellonSingleQueryStatement : String := "grantDetails GraphQL statement"

/-- The `"variables"` sub-dict of `_DEFAULT_BULK_PARAMS`. -/
def mellonVariablesDefault : PyDict :=
  [("limit", .int 100), ("offset", .int 0), ("term", .str ""),
   ("sort", .str "MOST_RELEVANT"), ("years", .list []),
   ("grantMakingAreas", .list []), ("ideas", .list []),
   ("pastProgram", .bool false), ("amountRanges", .list []),
   ("country", .list []), ("state", .list []), ("features", .list [])]

/-- `_DEFAULT_BULK_PARAMS` (its `"variables"` entry references object 1). -/
def mellonBulkDefault : PyDict :=
  [("operationName", .str "GrantFilterQuery"), ("variables", .ref 1),
   ("query", .str mellonBulkQueryStatement)]

/-- The `"variables"` sub-dict of `_DEFAULT_SINGLE_PARAMS`. -/
def mellonSingleVariablesDefault : PyDict := [("grantId", .str "")]

/-- `_DEFAULT_SINGLE_PARAMS` (its `"variables"` entry references object 3). -/
def mellonSingleDefault : PyDict :=
  [("variables", .ref 3), ("query", .str mellonSingleQueryStatement)]

/-- The module heap of `sources/mellon.py` after import: the two template
dicts and their nested `"variables"` dicts. -/
def mellonHeap0 : PyHeap :=
  ⟨4, [(0, mellonBulkDefault), (1, mellonVariablesDefault),
       (2, mellonSingleDefault), (3, mellonSingleVariablesDefault)]⟩

/-- The year-enumeration block of `Mellon._format_query_params`
(mellon.py lines 108-122): when `from_datetime` is given without
`to_datetime`, `to_datetime` defaults to `datetime.utcnow()` (passed here as
`now`); when both ends are known the years list is
`range(from.year, to.year + 1)`; otherwise it stays empty.  Inputs arrive
already parsed (`DataSource._parse_datetime` is the identity on datetimes and
ISO parsing on strings). -/
def mellonYears (fromDt toDt : Option PyDate) (now : PyDate) : List Nat :=
  let toDt := if fromDt.isSome && toDt.isNone then some now else toDt
  match fromDt, toDt with
  | some f, some t => List.range' f.year (t.year + 1 - f.year)
  | _, _ => []

namespace Mellon

/-- `Mellon._format_query_params`: deep-copy `_DEFAULT_BULK_PARAMS` (object
0 in `mellonHeap0`), then assign `term`, `offset`, `years`, `limit` into the
copy's `"variables"` dict.  Returns the updated heap and the address of the
fresh params dict. -/
def format_query_params (h : PyHeap) (query : Option String)
    (fromDt toDt : Option PyDate) (now : PyDate) (offset limit : Int) :
    PyHeap × Nat :=
  let years := mellonYears fromDt toDt now
  let (h, pv) := dcVal 5 h (.ref 0)
  match pv with
  | .ref p =>
    let a := h.deref p "variables"
    let h := h.write a "term" (.str (query.getD ""))
    let h := h.write a "offset" (.int offset)
    let h := h.write a "years" (.list (years.map (fun y => .int y)))
    let h := h.write a "limit" (.int limit)
    (h, p)
  | _ => (h, 0)

/-- The param-building step of `Mellon._get_funded_amount_for_grant`:
deep-copy `_DEFAULT_SINGLE_PARAMS` (object 2) and assign `grantId`. -/
def format_single_params (h : PyHeap) (grantId : String) : PyHeap × Nat :=
  let (h, pv) := dcVal 5 h (.ref 2)
  match pv with
  | .ref p =>
    let a := h.deref p "variables"
    let h := h.write a "grantId" (.str grantId)
    (h, p)
  | _ => (h, 0)

end Mellon

/-! ### NIH templates (`sources/nih.py` module level) -/

/-- `_DEFAULT_METADATA_SET` from `sources/nih.py`: the CamelCase request
field names sent as `include_fields`. -/
def NIH_DEFAULT_METADATA_SET : List String :=
  ["Organization", "ProjectNum", "ProjectSerialNum", "FiscalYear",
   "ProjectStartDate", "ProjectEndDate", "ProjectTitle", "AgencyCode",
   "AbstractText", "ContactPiName", "AwardAmount", "AwardNoticeDate"]

/-- The `award_notice_date` sub-dict of `_DEFAULT_PARAMS` (object 3). -/
def nihNoticeDateDefault : PyDict :=
  [("from_date", .none), ("to_date", .none)]

/-- The `award` sub-dict (object 2). -/
def nihAwardDefault : PyDict := [("award_notice_date", .ref 3)]

/-- The `advanced_text_search` sub-dict (object 4). -/
def nihAdvancedDefault : PyDict :=
  [("search_text", .none), ("operator", .str "advanced"),
   ("search_field", .str "abstracttext")]

/-- The `criteria` sub-dict (object 1). -/
def nihCriteriaDefault : PyDict :=
  [("award", .ref 2), ("exclude_subprojects", .bool true),
   ("advanced_text_search", .ref 4)]

/-- `_DEFAULT_PARAMS` (object 0). -/
def nihParamsDefault : PyDict :=
  [("criteria", .ref 1),
   ("include_fields", .list (NIH_DEFAULT_METADATA_SET.map PyVal.str)),
   ("limit", .int 500), ("offset", .int 0)]

/-- The module heap of `sources/nih.py` after import. -/
def nihHeap0 : PyHeap :=
  ⟨5, [(0, nihParamsDefault), (1, nihCriteriaDefault), (2, nihAwardDefault),
       (3, nihNoticeDateDefault), (4, nihAdvancedDefault)]⟩

namespace NIH

/-- `NIH._format_datetime`: parse then `.date().isoformat()`. -/
def format_datetime (dt : DtInput) : Except PyErr String := do
  let d ← DataSource.parse_datetime dt
  pure d.isoformat

/-- `NIH._format_query`: deep-copy `_DEFAULT_PARAMS` (object 0 in
`nihHeap0`), then assign `from_date`/`to_date` (ISO strings when the bound is
given, `None` otherwise), the search text (`query or ""`), `limit` and
`offset`.  Date arguments arrive already parsed. -/
def format_query (h : PyHeap) (query : Option String)
    (fromDt toDt : Option PyDate) (offset limit : Int) : PyHeap × Nat :=
  let (h, pv) := dcVal 5 h (.ref 0)
  match pv with
  | .ref p =>
    let crit := h.deref p "criteria"
    let award := h.deref crit "award"
    let notice := h.deref award "award_notice_date"
    let h := h.write notice "from_date"
      (match fromDt with | some d => .str d.isoformat | Option.none => .none)
    let h := h.write notice "to_date"
      (match toDt with | some d => .str d.isoformat | Option.none => .none)
    let adv := h.deref crit "advanced_text_search"
    let h := h.write adv "search_text" (.str (query.getD ""))
    let h := h.write p "limit" (.int limit)
    let h := h.write p "offset" (.int offset)
    (h, p)
  | _ => (h, 0)

end NIH

/-- The non-reference entries of a dict (reference addresses are allocation
artifacts; the referenced dicts are compared through their own views). -/
def dictScalars (d : PyDict) : PyDict :=
  d.filter (fun e => match e.2 with | .ref _ => false | _ => true)

/-- The observable content of a params dict built by
`Mellon._format_query_params` or `Mellon._get_funded_amount_for_grant`: the
scalar entries of the top-level dict together with its dereferenced
`"variables"` dict. -/
def mellonParamsView (h : PyHeap) (p : Nat) : PyDict × PyDict :=
  (dictScalars (h.lookup p), h.lookup (h.deref p "variables"))

/-- The observable content of a params dict built by `NIH._format_query`:
the scalar entries of the top-level dict and of the four nested dicts it
references along the key paths the code writes. -/
def nihParamsView (h : PyHeap) (p : Nat) :
    PyDict × PyDict × PyDict × PyDict × PyDict :=
  let crit := h.deref p "criteria"
  let award := h.deref crit "award"
  (dictScalars (h.lookup p), dictScalars (h.lookup crit),
   dictScalars (h.lookup award),
   h.lookup (h.deref award "award_notice_date"),
   h.lookup (h.deref crit "advanced_text_search"))

/-! ## Adapter pipelines

Each adapter's network round-trips are abstracted into a "remote" record of
fallible functions (one per request kind); everything after the response —
frame construction, formatting, concatenation — is transcribed from the
source.  `raise_on_error` is threaded exactly as in the code. -/

/-- The chunk-accumulation loop shared verbatim by `Mellon.get_data`,
`NIH.get_data` and `Sloan.get_data`: iterate the offsets in order, fetch each
chunk, `continue` past a `None` chunk, append the rest; a raised chunk error
aborts the whole fold (partial results are discarded). -/
def collectSkip (f : Nat → Except PyErr (Option DataFrame)) :
    List Nat → Except PyErr (List DataFrame)
  | [] => .ok []
  | off :: rest => do
    match ← f off with
    | some c => do
      let tail ← collectSkip f rest
      pure (c :: tail)
    | Option.none => collectSkip f rest

/-- The remote behavior of the Mellon GraphQL endpoint, as seen by the code:
the total-count query (`_query_total_grants`, which already wraps any
failure into a `ValueError`), the per-offset entity fetch (the POST, its
status check and the extraction of `entities[*]["data"]` dict rows), and the
per-grant amount lookup keyed by the `id` cell. -/
structure MellonRemote where
  totalGrants : Except PyErr Nat
  entities : Nat → Except PyErr (List Row)
  amountOf : Cell → Except PyErr Cell

namespace Mellon

/-- `Mellon._format_dataframe`: derive `year` from `dateAwarded`, attach
`query` and `source`, rename to the canonical names, create any missing
canonical column as `None`, and select exactly `ALL_DATASET_FIELDS`. -/
def format_dataframe (df : DataFrame) (query : Option String) :
    Except PyErr DataFrame := do
  let df ← df.applyCol "year" "dateAwarded" (dateApplyCell .year)
  let df := df.setConst "query" (optStrCell query)
  let df := df.setConst "source" (.str "Mellon Foundation")
  let df := df.rename
    [("grantee", "institution"), ("description", "abstract"),
     ("estimatedTotalAmt", "amount"), ("grantMakingArea", "program")]
  let df := ALL_DATASET_FIELDS.foldl
    (fun d f => if f ∈ d.cols then d else d.setConst f .none) df
  df.select ALL_DATASET_FIELDS

/-- `Mellon._get_chunk`: inside the `try`, fetch the entity rows, build the
frame, fill `amount` by the per-grant lookup applied to the `id` column, and
format; on an exception return it when `raise_on_error` else log and return
`None`. -/
def get_chunk (rm : MellonRemote) (query : Option String) (offset : Nat)
    (raise_on_error : Bool) : Except PyErr (Option DataFrame) :=
  let body : Except PyErr DataFrame := do
    let ents ← rm.entities offset
    let chunk := buildDf ents
    let chunk ← chunk.applyCol "amount" "id" rm.amountOf
    format_dataframe chunk query
  match body with
  | .ok d => .ok (some d)
  | .error e => if raise_on_error then .error e else .ok Option.none

/-- `Mellon.get_data`: query the total, walk offsets `range(0, total, 100)`
collecting chunks (skipping `None` ones), then
`pd.concat(results, ignore_index=True)` — with no deduplication step.  The
`from`/`to` dates only shape the request parameters, which the remote
abstraction already accounts for. -/
def get_data (rm : MellonRemote) (query : Option String)
    (raise_on_error : Bool) : Except PyErr DataFrame := do
  let total ← rm.totalGrants
  let results ← collectSkip (fun off => get_chunk rm query off raise_on_error)
    (rangeStep total 100)
  pd_concat results

end Mellon

/-- `astype(float)` on the cells of the `amount` column: numerics convert,
`None`/NaN stays NaN, anything non-numeric raises. -/
def castFloat (c : Cell) : Except PyErr Cell :=
  match c with
  | .int n => .ok (.float (n : Rat))
  | .float x => .ok (.float x)
  | .none => .ok .none
  | .str _ => .error (.valueError "could not convert string to float")

/-- The remote behavior of the NIH reporter API: the total-count query
(`_query_total_grants`, failures wrapped into `ValueError`) and the
per-offset result rows (after the in-loop extraction of
`organization["org_name"]`). -/
structure NIHRemote where
  total : Except PyErr Nat
  results : Nat → Except PyErr (List Row)

namespace NIH

/-- `NIH._format_dataframe`: derive `start`/`end` from the project dates,
attach `query` and `source`, rename to canonical names, cast `amount` to
float, and select exactly `ALL_DATASET_FIELDS` (no missing-column fill: the
response keys are relied upon). -/
def format_dataframe (df : DataFrame) (query : Option String) :
    Except PyErr DataFrame := do
  let df ← df.applyCol "start" "project_start_date" (dateApplyCell .date)
  let df ← df.applyCol "end" "project_end_date" (dateApplyCell .date)
  let df := df.setConst "query" (optStrCell query)
  let df := df.setConst "source" (.str "NIH")
  let df := df.rename
    [("organization", "institution"), ("contact_pi_name", "pi"),
     ("fiscal_year", "year"), ("agency_code", "program"),
     ("award_amount", "amount"), ("project_num", "id"),
     ("project_title", "title"), ("abstract_text", "abstract")]
  let df ← df.applyCol "amount" "amount" castFloat
  df.select ALL_DATASET_FIELDS

/-- `NIH._get_chunk`: fetch the result rows for an offset; an empty result
list falls back to an empty frame whose columns are the CamelCase request
fields of `_DEFAULT_METADATA_SET`; then format, under the raise-or-skip
policy. -/
def get_chunk (rm : NIHRemote) (query : Option String) (offset : Nat)
    (raise_on_error : Bool) : Except PyErr (Option DataFrame) :=
  let body : Except PyErr DataFrame := do
    let rows ← rm.results offset
    let return_data :=
      if rows.length > 0 then buildDf rows
      else emptyDf NIH_DEFAULT_METADATA_SET
    format_dataframe return_data query
  match body with
  | .ok d => .ok (some d)
  | .error e => if raise_on_error then .error e else .ok Option.none

/-- `NIH.get_data`: query the total; if `total >= 10000` raise the
narrow-your-search `ValueError` before any page request; otherwise walk
offsets `range(0, total, 500)` collecting chunks (skipping `None`), then
concatenate (no deduplication; `reset_index(drop=True)` is the positional
identity here). -/
def get_data (rm : NIHRemote) (query : Option String)
    (raise_on_error : Bool) : Except PyErr DataFrame := do
  let total ← rm.total
  if total ≥ 10000 then
    .error (.valueError ("Total grants is " ++ toString total ++
      ", which is too many to fetch. Please narrow your search."))
  else do
    let chunks ← collectSkip (fun off => get_chunk rm query off raise_on_error)
      (rangeStep total 500)
    pd_concat chunks

end NIH

/-- `_DEFAULT_METADATA_SET` from `sources/nsf.py`: these names are also the
response keys, so the empty-page fallback frame formats cleanly. -/
def NSF_DEFAULT_METADATA_SET : List String :=
  ["id", "date", "startDate", "expDate", "title", "awardeeName",
   "piFirstName", "piLastName", "cfdaNumber", "estimatedTotalAmt",
   "abstractText", "piEmail"]

/-- The remote behavior of the NSF awards API: per offset, either the
`data["award"]` record list, or `None` when the response carries no `award`
key, or a raised request/parse error. -/
structure NSFRemote where
  award : Nat → Except PyErr (Option (List Row))

namespace NSF

/-- `NSF._format_dataframe`: combine the PI first/last names, drop the name
columns, format the three date columns, attach `query` and `source`, rename
to canonical names, and select exactly `ALL_DATASET_FIELDS`. -/
def format_dataframe (df : DataFrame) (query : Option String) :
    Except PyErr DataFrame := do
  let df ← df.combineStrCols "pi" "piFirstName" "piLastName"
  let df := df.dropCols ["piFirstName", "piLastName"]
  let df ← df.applyCol "startDate" "startDate" (dateApplyCell .date)
  let df ← df.applyCol "expDate" "expDate" (dateApplyCell .date)
  let df ← df.applyCol "date" "date" (dateApplyCell .year)
  let df := df.setConst "query" (optStrCell query)
  let df := df.setConst "source" (.str "NSF")
  let df := df.rename
    [("awardeeName", "institution"), ("date", "year"),
     ("startDate", "start"), ("expDate", "end"), ("cfdaNumber", "program"),
     ("estimatedTotalAmt", "amount"), ("abstractText", "abstract")]
  df.select ALL_DATASET_FIELDS

/-- `NSF._get_chunk`: fetch the response for an offset; build the frame from
`data["award"]` or fall back to the empty metadata-column frame; format
(note the source calls `_format_dataframe(return_data)` without passing
`query`, so the query column is always null), under the raise-or-skip
policy. -/
def get_chunk (rm : NSFRemote) (offset : Nat) (raise_on_error : Bool) :
    Except PyErr (Option DataFrame) :=
  let body : Except PyErr DataFrame := do
    let data ← rm.award offset
    let return_data :=
      match data with
      | some rows => buildDf rows
      | Option.none => emptyDf NSF_DEFAULT_METADATA_SET
    format_dataframe return_data Option.none
  match body with
  | .ok d => .ok (some d)
  | .error e => if raise_on_error then .error e else .ok Option.none

/-- The `while True` pagination loop of `NSF.get_data`, with explicit fuel:
append every chunk (also a skipped `None`); break as soon as a non-`None`
chunk is shorter than the page size 25; a chunk error aborts.  A `some`
result is the chunk list of a terminating run; a `none` result means the
fuel ran out, witnessing that no iteration count terminates the loop. -/
def loop (rm : NSFRemote) (raise_on_error : Bool) :
    Nat → Nat → List (Option DataFrame) →
    Except PyErr (Option (List (Option DataFrame)))
  | 0, _, _ => .ok Option.none
  | fuel + 1, offset, acc => do
    let chunk ← get_chunk rm offset raise_on_error
    let acc2 := acc ++ [chunk]
    match chunk with
    | some c =>
      if c.rows.length < 25 then pure (some acc2)
      else loop rm raise_on_error fuel (offset + 25) acc2
    | Option.none => loop rm raise_on_error fuel (offset + 25) acc2

/-- `NSF.get_data`: run the pagination loop from offset 0, then
`pd.concat(chunks, ignore_index=True).drop_duplicates(subset="id").reset_index(drop=True)`.
The outer `Option` is `none` when the loop exhausts any fuel (the run does
not terminate). -/
def get_data (rm : NSFRemote) (raise_on_error : Bool) (fuel : Nat) :
    Except PyErr (Option DataFrame) := do
  match ← loop rm raise_on_error fuel 0 [] with
  | some chunks => do
    let d ← pd_concatO chunks
    pure (some (d.dropDuplicatesBy "id"))
  | Option.none => pure Option.none

end NSF

/-- One award row as assembled by the HTML-scraping loop of
`Sloan._get_chunk` (the source coerces `amount` to `float`, `year` and the
id to `int`, and strips the marker text from the other fields before
building the dict). -/
structure SloanRow where
  institution : String
  amount : Rat
  year : Int
  title : String
  id : Int
  program : String
  pi : String
deriving DecidableEq, Repr

/-- The dict built for one award, in the key order of the source. -/
def SloanRow.toRow (r : SloanRow) : Row :=
  [("institution", .str r.institution), ("amount", .float r.amount),
   ("year", .int r.year), ("title", .str r.title), ("id", .int r.id),
   ("program", .str r.program), ("pi", .str r.pi)]

/-- The remote behavior of the Sloan grants-database pages: the scraped
total count (`_query_total_grants`, failures wrapped into `ValueError`) and
the parsed award rows of each page request. -/
structure SloanRemote where
  total : Except PyErr Nat
  page : Nat → Except PyErr (List SloanRow)

namespace Sloan

/-- `Sloan._format_dataframe`: attach `query` and `source`, create missing
canonical columns as `None`, and select exactly `ALL_DATASET_FIELDS`. -/
def format_dataframe (df : DataFrame) (query : Option String) :
    Except PyErr DataFrame := do
  let df := df.setConst "query" (optStrCell query)
  let df := df.setConst "source" (.str "Sloan")
  let df := ALL_DATASET_FIELDS.foldl
    (fun d f => if f ∈ d.cols then d else d.setConst f .none) df
  df.select ALL_DATASET_FIELDS

/-- `Sloan._get_chunk`: fetch and parse one page, build the frame from the
scraped rows, format, under the raise-or-skip policy. -/
def get_chunk (rm : SloanRemote) (query : Option String) (offset : Nat)
    (raise_on_error : Bool) : Except PyErr (Option DataFrame) :=
  let body : Except PyErr DataFrame := do
    let rows ← rm.page offset
    format_dataframe (buildDf (rows.map SloanRow.toRow)) query
  match body with
  | .ok d => .ok (some d)
  | .error e => if raise_on_error then .error e else .ok Option.none

/-- `Sloan.get_data`: scrape the total, walk offsets
`range(0, total, 3000)` collecting chunks (skipping `None`); an empty chunk
list short-circuits to an empty frame with the canonical columns; otherwise
concatenate and post-filter by year: rows with `year >= from.year` when
`from_datetime` is given, then rows with `year <= to.year` when
`to_datetime` is given. -/
def get_data (rm : SloanRemote) (query : Option String)
    (fromDt toDt : Option PyDate) (raise_on_error : Bool) :
    Except PyErr DataFrame := do
  let total ← rm.total
  let chunks ← collectSkip (fun off => get_chunk rm query off raise_on_error)
    (rangeStep total 3000)
  match chunks with
  | [] => .ok (emptyDf ALL_DATASET_FIELDS)
  | _ => do
    let df ← pd_concat chunks
    let df ← match fromDt with
      | some f => df.filterGeInt "year" (f.year : Int)
      | Option.none => pure df
    let df ← match toDt with
      | some t => df.filterLeInt "year" (t.year : Int)
      | Option.none => pure df
    pure df

end Sloan

/-- `df[c] = value_list`: assign a column from a list; pandas raises
`ValueError` when the list length differs from the row count. -/
def DataFrame.setColList (df : DataFrame) (c : String) (vs : List Cell) :
    Except PyErr DataFrame :=
  if vs.length = df.rows.length then
    .ok ⟨addCol df.cols c, (df.rows.zip vs).map (fun p => p.1.set c p.2)⟩
  else .error (.valueError "Length of values does not match length of index")

/-- `isin` membership of a cell in a string list. -/
def cellInStrList (c : Cell) (l : List String) : Bool :=
  match c with
  | .str s => l.contains s
  | _ => false

/-- The remote behavior of the two Templeton fetches: the search-page
request yielding the bookmark link URLs, and the bulk grant-database request
yielding the parsed `grants-table` frame (raw header columns) together with
the `tbody` link URLs. -/
structure TempletonRemote where
  searchLinks : Except PyErr (List String)
  bulk : Except PyErr (DataFrame × List String)

namespace Templeton

/-- `Templeton._format_dataframe`: attach `query` and `source`, rename the
raw table headers to canonical names, create missing canonical columns as
`None`, and select exactly `ALL_DATASET_FIELDS`. -/
def format_dataframe (df : DataFrame) (query : Option String) :
    Except PyErr DataFrame := do
  let df := df.setConst "query" (optStrCell query)
  let df := df.setConst "source" (.str "Templeton")
  let df := df.rename
    [("Start Year", "year"), ("ID", "id"), ("Title", "title"),
     ("Project Leader(s)", "pi"), ("Grantee(s)", "institution"),
     ("Grant Amount", "amount"), ("Funding Area", "program")]
  let df := ALL_DATASET_FIELDS.foldl
    (fun d f => if f ∈ d.cols then d else d.setConst f .none) df
  df.select ALL_DATASET_FIELDS

/-- The `except` handler plus the code after the `try` block of
`Templeton.get_data`: re-raise when `raise_on_error`; otherwise fall through
to the year-filter lines with whatever the local `df` last held — `none`
when the exception hit before `pd.read_html` assigned it (then evaluating
`df` raises `NameError`) — and return that frame (the year filters
reference the canonical `year` column, which a raw frame does not have, so
with a date bound given they raise `KeyError`). -/
def handler (fromDt toDt : Option PyDate) (raise_on_error : Bool)
    (e : PyErr) (dfState : Option DataFrame) : Except PyErr DataFrame :=
  if raise_on_error then .error e
  else
    match dfState with
    | Option.none => .error (.nameError "df")
    | some df => do
      let df ← match fromDt with
        | some f => df.filterGeInt "year" (f.year : Int)
        | Option.none => pure df
      let df ← match toDt with
        | some t => df.filterLeInt "year" (t.year : Int)
        | Option.none => pure df
      pure df

/-- `Templeton.get_data`: inside the `try`, fetch the search-page bookmark
links, fetch and parse the bulk table, attach the `link` column, subset to
rows whose link is among the search results, format, and `return` — so the
year-filter lines after the `try` never run on the success path.  On an
exception, defer to `handler` with the last value bound to `df`. -/
def get_data (rm : TempletonRemote) (query : Option String)
    (fromDt toDt : Option PyDate) (raise_on_error : Bool) :
    Except PyErr DataFrame :=
  match rm.searchLinks with
  | .error e => handler fromDt toDt raise_on_error e Option.none
  | .ok relevant_link_urls =>
    match rm.bulk with
    | .error e => handler fromDt toDt raise_on_error e Option.none
    | .ok (tbl, all_link_urls) =>
      match tbl.setColList "link" (all_link_urls.map Cell.str) with
      | .error e => handler fromDt toDt raise_on_error e (some tbl)
      | .ok df2 =>
        let df3 : DataFrame :=
          ⟨df2.cols, df2.rows.filter
            (fun r => cellInStrList (r.get "link") relevant_link_urls)⟩
        match format_dataframe df3 query with
        | .ok out => .ok out
        | .error e => handler fromDt toDt raise_on_error e (some df3)

end Templeton

deriving instance DecidableEq for Except

/-! ## Lemmas: decimal digit printing and parsing -/

theorem charDigit_digitChar {d : Nat} (h : d < 10) :
    charDigit? (Nat.digitChar d) = some d := by
  interval_cases d <;> rfl

theorem digitChar_ne_dash {d : Nat} (h : d < 10) : Nat.digitChar d ≠ '-' := by
  interval_cases d <;> decide

theorem digitsBEAux_fold (n : Nat) : ∀ (fuel acc : Nat), n ≤ fuel →
    (digitsBEAux fuel n).foldl digitsFold (some acc) =
      some (acc * 10 ^ (digitsBEAux fuel n).length + n) := by
  induction n using Nat.strong_induction_on with
  | _ n ih =>
    intro fuel acc hle
    match fuel with
    | 0 =>
      interval_cases n
      simp [digitsBEAux]
    | fuel + 1 =>
      by_cases hn : n = 0
      · subst hn; simp [digitsBEAux]
      · have hdiv_lt : n / 10 < n := Nat.div_lt_self (Nat.pos_of_ne_zero hn) (by omega)
        have hdiv_le : n / 10 ≤ fuel := by omega
        have hmod : n % 10 < 10 := Nat.mod_lt _ (by omega)
        simp only [digitsBEAux, if_neg hn, List.foldl_append, List.length_append,
          List.length_cons, List.length_nil]
        rw [ih (n / 10) hdiv_lt fuel acc hdiv_le]
        simp only [List.foldl_cons, List.foldl_nil, digitsFold,
          charDigit_digitChar hmod]
        have : (acc * 10 ^ (digitsBEAux fuel (n / 10)).length + n / 10) * 10 + n % 10
            = acc * 10 ^ ((digitsBEAux fuel (n / 10)).length + 1) + n := by
          rw [pow_succ]
          have := Nat.div_add_mod n 10
          ring_nf
          omega
        rw [this]

theorem replicate_zero_fold (z acc : Nat) :
    (List.replicate z '0').foldl digitsFold (some acc) = some (acc * 10 ^ z) := by
  induction z generalizing acc with
  | zero => simp
  | succ z ih =>
    rw [List.replicate_succ, List.foldl_cons]
    have h0 : digitsFold (some acc) '0' = some (acc * 10) := by rfl
    rw [h0, ih (acc * 10)]
    rw [pow_succ]
    ring_nf

theorem padZeros_ne_nil {w : Nat} (hw : 0 < w) (cs : List Char) :
    padZeros w cs ≠ [] := by
  intro h
  unfold padZeros at h
  have hlen := congrArg List.length h
  rw [List.length_append, List.length_replicate, List.length_nil] at hlen
  omega

theorem digitsVal_pad (w n : Nat) (hw : 0 < w) :
    digitsVal? (padZeros w (natDigitsBE n)) = some n := by
  have hne := padZeros_ne_nil hw (natDigitsBE n)
  have hfold : (padZeros w (natDigitsBE n)).foldl digitsFold (some 0) = some n := by
    unfold padZeros
    rw [List.foldl_append, replicate_zero_fold]
    simp only [Nat.zero_mul]
    rw [natDigitsBE, digitsBEAux_fold n n 0 (Nat.le_refl n)]
    simp only [Nat.zero_mul, Nat.zero_add]
  obtain ⟨c, cs, hcons⟩ := List.exists_cons_of_ne_nil hne
  rw [hcons] at hfold ⊢
  simpa [digitsVal?] using hfold

theorem digitsBEAux_mem_ne_dash : ∀ (fuel n : Nat) (c : Char),
    c ∈ digitsBEAux fuel n → c ≠ '-' := by
  intro fuel
  induction fuel with
  | zero => intro n c h; simp [digitsBEAux] at h
  | succ fuel ih =>
    intro n c h
    by_cases hn : n = 0
    · subst hn; simp [digitsBEAux] at h
    · simp only [digitsBEAux, if_neg hn, List.mem_append, List.mem_singleton] at h
      cases h with
      | inl h => exact ih _ _ h
      | inr h =>
        subst h
        exact digitChar_ne_dash (Nat.mod_lt _ (by omega))

theorem padZeros_natDigitsBE_no_dash (w n : Nat) :
    '-' ∉ padZeros w (natDigitsBE n) := by
  unfold padZeros
  intro h
  rw [List.mem_append] at h
  cases h with
  | inl h =>
    have := List.eq_of_mem_replicate h
    exact absurd this (by decide)
  | inr h => exact digitsBEAux_mem_ne_dash n n '-' h rfl

/-! ## Lemmas: dash splitting -/

theorem splitDash_ne_nil : ∀ (l : List Char), splitDash l ≠ [] := by
  intro l
  induction l with
  | nil => simp [splitDash]
  | cons c cs ih =>
    unfold splitDash
    by_cases hc : c = '-'
    · simp [hc]
    · simp only [if_neg hc]
      match h : splitDash cs with
      | [] => exact absurd h ih
      | g :: gs => simp

theorem splitDash_no_dash : ∀ (a : List Char), '-' ∉ a → splitDash a = [a] := by
  intro a
  induction a with
  | nil => intro _; rfl
  | cons c cs ih =>
    intro h
    have hc : c ≠ '-' := fun hcc => h (by simp [hcc])
    have hcs : '-' ∉ cs := fun hm => h (List.mem_cons_of_mem _ hm)
    unfold splitDash
    rw [if_neg hc, ih hcs]

theorem splitDash_append : ∀ (a b : List Char), '-' ∉ a →
    splitDash (a ++ '-' :: b) = a :: splitDash b := by
  intro a
  induction a with
  | nil => intro b _; simp [splitDash]
  | cons c cs ih =>
    intro b h
    have hc : c ≠ '-' := fun hcc => h (by simp [hcc])
    have hcs : '-' ∉ cs := fun hm => h (List.mem_cons_of_mem _ hm)
    have hih := ih b hcs
    simp only [List.cons_append, splitDash, if_neg hc, List.append_eq, hih]

theorem parseISODate_valid {s : String} {d : PyDate}
    (h : parseISODate s = some d) : d.Valid := by
  unfold parseISODate at h
  split at h
  · split at h
    · split at h
      · injection h with h
        subst h
        assumption
      · exact absurd h (by simp)
    all_goals exact absurd h (by simp)
  · exact absurd h (by simp)

theorem parseISODate_isoformat (d : PyDate) (hv : d.Valid) :
    parseISODate d.isoformat = some d := by
  obtain ⟨h1, h2, h3, h4⟩ := hv
  unfold PyDate.isoformat parseISODate
  rw [show (String.mk (padZeros 4 (natDigitsBE d.year) ++ '-' ::
      (padZeros 2 (natDigitsBE d.month) ++ '-' ::
        padZeros 2 (natDigitsBE d.day)))).data
    = padZeros 4 (natDigitsBE d.year) ++ '-' ::
      (padZeros 2 (natDigitsBE d.month) ++ '-' ::
        padZeros 2 (natDigitsBE d.day)) from rfl]
  rw [splitDash_append _ _ (padZeros_natDigitsBE_no_dash 4 d.year),
    splitDash_append _ _ (padZeros_natDigitsBE_no_dash 2 d.month),
    splitDash_no_dash _ (padZeros_natDigitsBE_no_dash 2 d.day)]
  simp only [digitsVal_pad 4 d.year (by omega),
    digitsVal_pad 2 d.month (by omega), digitsVal_pad 2 d.day (by omega)]
  rw [if_pos ⟨h1, h2, h3, h4⟩]

/-- Inputs Python could actually hand the date formatter: a `datetime`
object always satisfies the constructor bounds; strings and `None` carry no
constraint. -/
def DtInput.Wf : DtInput → Prop
  | .dt d => d.Valid
  | _ => True

instance (x : DtInput) : Decidable x.Wf := by
  unfold DtInput.Wf
  cases x <;> infer_instance

/-- C7: the date formatter is idempotent at date granularity — for every
input `x` the formatter accepts with `fmt="date"` (producing the ISO string
`s`), formatting `s` again with `fmt="date"` returns `s` unchanged — and a
`None` input returns `None` without raising, for both the `"date"` and
`"year"` granularities. -/
theorem claim_C7 :
    (∀ (x : DtInput) (s : String), x.Wf →
      DataSource.format_date_for_pynder_standard x .date = .ok (.str s) →
      DataSource.format_date_for_pynder_standard (.str s) .date
        = .ok (.str s)) ∧
    DataSource.format_date_for_pynder_standard .none .date = .ok .none ∧
    DataSource.format_date_for_pynder_standard .none .year = .ok .none := by
  refine ⟨?_, rfl, rfl⟩
  have format_str_date : ∀ s : String,
      DataSource.format_date_for_pynder_standard (.str s) .date =
        match parseISODate s with
        | some d => .ok (.str d.isoformat)
        | Option.none => .error .parseError := by
    intro s
    simp only [DataSource.format_date_for_pynder_standard, dateutil_parse]
    cases parseISODate s <;> rfl
  intro x s hwf h
  have key : ∀ d : PyDate, d.Valid → s = d.isoformat →
      DataSource.format_date_for_pynder_standard (.str s) .date
        = .ok (.str s) := by
    intro d hv hs
    subst hs
    rw [format_str_date, parseISODate_isoformat d hv]
  cases x with
  | none => exact absurd h (by simp [DataSource.format_date_for_pynder_standard])
  | str s0 =>
    rw [format_str_date] at h
    cases hq : parseISODate s0 with
    | none => rw [hq] at h; exact absurd h (by simp)
    | some d =>
      rw [hq] at h
      have hs : s = d.isoformat := by
        injection h with h
        injection h with h
        exact h.symm
      exact key d (parseISODate_valid hq) hs
  | dt d =>
    have hd : DataSource.format_date_for_pynder_standard (.dt d) .date
        = .ok (.str d.isoformat) := rfl
    rw [hd] at h
    have hs : s = d.isoformat := by
      injection h with h
      injection h with h
      exact h.symm
    exact key d hwf hs

/-- Witness for C7 at the concrete ISO date string `2023-01-05`. -/
theorem claim_C7_witness :
    DataSource.format_date_for_pynder_standard (.str "2023-01-05") .date
      = .ok (.str "2023-01-05") :=
  claim_C7.1 (.str "2023-01-05") "2023-01-05" (by decide) (by decide)

/-- C10: in `Mellon._format_query_params` the date range becomes an
enumerated year list only when `from_datetime` is present — with both ends
the list is exactly the inclusive range of years, with `from` alone the
upper end defaults to the current time, but `to_datetime` alone is silently
ignored and the years filter stays empty. -/
theorem claim_C10 :
    (∀ (f t now : PyDate) (y : Nat),
      y ∈ mellonYears (some f) (some t) now ↔ f.year ≤ y ∧ y ≤ t.year) ∧
    (∀ (f now : PyDate) (y : Nat),
      y ∈ mellonYears (some f) Option.none now ↔
        f.year ≤ y ∧ y ≤ now.year) ∧
    (∀ t now : PyDate, mellonYears Option.none (some t) now = []) ∧
    (∀ now : PyDate, mellonYears Option.none Option.none now = []) := by
  refine ⟨?_, ?_, fun t now => rfl, fun now => rfl⟩
  · intro f t now y
    show y ∈ List.range' f.year (t.year + 1 - f.year) ↔ _
    rw [List.mem_range'_1]
    omega
  · intro f now y
    show y ∈ List.range' f.year (now.year + 1 - f.year) ↔ _
    rw [List.mem_range'_1]
    omega


/-! ## Lemmas: template deep-copy and frame behavior (C9)

Each param-building call is characterized by the store trace it prepends to
an arbitrary heap whose template objects are intact: the templates are only
read, never written, and all writes land on the freshly copied objects. -/

theorem nat_beq_add_right (n a b : Nat) : (n + a == n + b) = (a == b) := by
  by_cases h : a = b
  · subst h
    rw [beq_self_eq_true, beq_self_eq_true]
  · rw [show (a == b) = false from beq_eq_false_iff_ne.mpr h,
      show (n + a == n + b) = false from beq_eq_false_iff_ne.mpr (by omega)]

theorem nat_beq_add_left (n b : Nat) : (n == n + b) = (0 == b) := by
  have h := nat_beq_add_right n 0 b
  rw [Nat.add_zero] at h
  exact h

theorem nat_beq_add_right_zero (n a : Nat) : (n + a == n) = (a == 0) := by
  have h := nat_beq_add_right n a 0
  rw [Nat.add_zero] at h
  exact h

theorem memLookup_skip (a : Nat) :
    ∀ (l m : List (Nat × PyDict)), (∀ e ∈ l, e.1 ≠ a) →
      memLookup (l ++ m) a = memLookup m a := by
  intro l
  induction l with
  | nil => intro m _; rfl
  | cons e rest ih =>
    intro m hne
    obtain ⟨b, d⟩ := e
    have hb : b ≠ a := hne (b, d) (List.mem_cons_self _ _)
    rw [List.cons_append, memLookup, if_neg (by simpa using hb)]
    exact ih m (fun e he => hne e (List.mem_cons_of_mem _ he))

theorem dcEntriesWith_cons (f : PyHeap → PyVal → PyHeap × PyVal) (h : PyHeap)
    (k : String) (v : PyVal) (rest : PyDict) :
    dcEntriesWith f h ((k, v) :: rest) =
      ((dcEntriesWith f (f h v).1 rest).1,
       (k, (f h v).2) :: (dcEntriesWith f (f h v).1 rest).2) := rfl

theorem dcVal_scalar (fuel : Nat) (h : PyHeap) :
    (dcVal fuel h .none = (h, .none)) ∧
    (∀ n : Int, dcVal fuel h (.int n) = (h, .int n)) ∧
    (∀ s : String, dcVal fuel h (.str s) = (h, .str s)) ∧
    (∀ b : Bool, dcVal fuel h (.bool b) = (h, .bool b)) ∧
    (∀ xs : List PyVal, dcVal fuel h (.list xs) = (h, .list xs)) := by
  cases fuel <;> exact ⟨rfl, fun _ => rfl, fun _ => rfl, fun _ => rfl, fun _ => rfl⟩

theorem dcVal_ref (fuel : Nat) (h : PyHeap) (a : Nat) :
    dcVal (fuel + 1) h (.ref a) =
      (⟨(dcEntriesWith (dcVal fuel) h (h.lookup a)).1.next + 1,
        ((dcEntriesWith (dcVal fuel) h (h.lookup a)).1.next,
         (dcEntriesWith (dcVal fuel) h (h.lookup a)).2) ::
        (dcEntriesWith (dcVal fuel) h (h.lookup a)).1.mem⟩,
       .ref (dcEntriesWith (dcVal fuel) h (h.lookup a)).1.next) := rfl

theorem dcVal_ref5 (h : PyHeap) (a : Nat) :
    dcVal 5 h (.ref a) =
      (⟨(dcEntriesWith (dcVal 4) h (h.lookup a)).1.next + 1,
        ((dcEntriesWith (dcVal 4) h (h.lookup a)).1.next,
         (dcEntriesWith (dcVal 4) h (h.lookup a)).2) ::
        (dcEntriesWith (dcVal 4) h (h.lookup a)).1.mem⟩,
       .ref (dcEntriesWith (dcVal 4) h (h.lookup a)).1.next) := dcVal_ref 4 h a

theorem dcVal_ref4 (h : PyHeap) (a : Nat) :
    dcVal 4 h (.ref a) =
      (⟨(dcEntriesWith (dcVal 3) h (h.lookup a)).1.next + 1,
        ((dcEntriesWith (dcVal 3) h (h.lookup a)).1.next,
         (dcEntriesWith (dcVal 3) h (h.lookup a)).2) ::
        (dcEntriesWith (dcVal 3) h (h.lookup a)).1.mem⟩,
       .ref (dcEntriesWith (dcVal 3) h (h.lookup a)).1.next) := dcVal_ref 3 h a

theorem dcVal_ref3 (h : PyHeap) (a : Nat) :
    dcVal 3 h (.ref a) =
      (⟨(dcEntriesWith (dcVal 2) h (h.lookup a)).1.next + 1,
        ((dcEntriesWith (dcVal 2) h (h.lookup a)).1.next,
         (dcEntriesWith (dcVal 2) h (h.lookup a)).2) ::
        (dcEntriesWith (dcVal 2) h (h.lookup a)).1.mem⟩,
       .ref (dcEntriesWith (dcVal 2) h (h.lookup a)).1.next) := dcVal_ref 2 h a

theorem dcVal_ref2 (h : PyHeap) (a : Nat) :
    dcVal 2 h (.ref a) =
      (⟨(dcEntriesWith (dcVal 1) h (h.lookup a)).1.next + 1,
        ((dcEntriesWith (dcVal 1) h (h.lookup a)).1.next,
         (dcEntriesWith (dcVal 1) h (h.lookup a)).2) ::
        (dcEntriesWith (dcVal 1) h (h.lookup a)).1.mem⟩,
       .ref (dcEntriesWith (dcVal 1) h (h.lookup a)).1.next) := dcVal_ref 1 h a

/-- Shape of the copied NIH top-level params dict. -/
def nihRootD (c : Nat) (lim off : Int) : PyDict :=
  [("criteria", .ref c),
   ("include_fields", .list (NIH_DEFAULT_METADATA_SET.map PyVal.str)),
   ("limit", .int lim), ("offset", .int off)]

/-- Shape of the copied NIH `criteria` dict. -/
def nihCritD (aw adv : Nat) : PyDict :=
  [("award", .ref aw), ("exclude_subprojects", .bool true),
   ("advanced_text_search", .ref adv)]

/-- Shape of the copied NIH `advanced_text_search` dict. -/
def nihAdvD (txt : PyVal) : PyDict :=
  [("search_text", txt), ("operator", .str "advanced"),
   ("search_field", .str "abstracttext")]

/-- Shape of the copied NIH `award_notice_date` dict. -/
def nihNoticeD (fv tv : PyVal) : PyDict := [("from_date", fv), ("to_date", tv)]

/-- Shape of the copied NIH `award` dict. -/
def nihAwardD (n : Nat) : PyDict := [("award_notice_date", .ref n)]

/-- The date value `NIH._format_query` writes for one bound. -/
def nihDateVal (d : Option PyDate) : PyVal :=
  match d with
  | some d => .str d.isoformat
  | Option.none => .none

/-- The store trace one `NIH._format_query` call prepends: five fresh copies
(allocated at `b` .. `b+4`) and the shadowing writes into them. -/
def nihCallTrace (b : Nat) (q : Option String) (f t : Option PyDate)
    (off lim : Int) : List (Nat × PyDict) :=
  [(b + 4, nihRootD (b + 3) lim off), (b + 4, nihRootD (b + 3) lim 0),
   (b + 2, nihAdvD (.str (q.getD ""))),
   (b, nihNoticeD (nihDateVal f) (nihDateVal t)),
   (b, nihNoticeD (nihDateVal f) .none),
   (b + 4, nihRootD (b + 3) 500 0), (b + 3, nihCritD (b + 1) (b + 2)),
   (b + 2, nihAdvD .none), (b + 1, nihAwardD b),
   (b, nihNoticeD .none .none)]

set_option maxHeartbeats 1600000 in
theorem nih_fq_general (h : PyHeap) (q : Option String) (f t : Option PyDate)
    (off lim : Int) (hn : 5 ≤ h.next)
    (h0 : memLookup h.mem 0 = nihParamsDefault)
    (h1 : memLookup h.mem 1 = nihCriteriaDefault)
    (h2 : memLookup h.mem 2 = nihAwardDefault)
    (h3 : memLookup h.mem 3 = nihNoticeDateDefault)
    (h4 : memLookup h.mem 4 = nihAdvancedDefault) :
    NIH.format_query h q f t off lim =
      (⟨h.next + 5, nihCallTrace h.next q f t off lim ++ h.mem⟩,
       h.next + 4) := by
  simp [NIH.format_query, dcVal_ref5, dcVal_ref4, dcVal_ref3, dcVal_ref2,
    dcVal_scalar, dcEntriesWith_cons, dcEntriesWith, PyHeap.alloc,
    PyHeap.write, PyHeap.deref, PyHeap.lookup, PyDict.set, PyDict.get,
    memLookup, h0, h1, h2, h3, h4, nihParamsDefault, nihCriteriaDefault,
    nihAwardDefault, nihNoticeDateDefault, nihAdvancedDefault, List.find?,
    nat_beq_add_right, nat_beq_add_left, nat_beq_add_right_zero,
    nihCallTrace, nihRootD, nihCritD, nihAdvD, nihNoticeD, nihAwardD,
    nihDateVal, Nat.add_assoc, show ¬ h.next = 0 from by omega,
    show ¬ h.next = 1 from by omega, show ¬ h.next = 2 from by omega,
    show ¬ h.next = 3 from by omega, show ¬ h.next = 4 from by omega]

/-- The observable content of the params dict one `NIH._format_query` call
builds, as a function of the arguments alone. -/
def nihViewSpec (q : Option String) (f t : Option PyDate) (off lim : Int) :
    PyDict × PyDict × PyDict × PyDict × PyDict :=
  ([("include_fields", .list (NIH_DEFAULT_METADATA_SET.map PyVal.str)),
    ("limit", .int lim), ("offset", .int off)],
   [("exclude_subprojects", .bool true)],
   [],
   [("from_date", nihDateVal f), ("to_date", nihDateVal t)],
   [("search_text", .str (q.getD "")), ("operator", .str "advanced"),
    ("search_field", .str "abstracttext")])

theorem nih_trace_view (h : PyHeap) (q : Option String) (f t : Option PyDate)
    (off lim : Int) :
    nihParamsView ⟨h.next + 5, nihCallTrace h.next q f t off lim ++ h.mem⟩
      (h.next + 4) = nihViewSpec q f t off lim := by
  simp [nihParamsView, nihViewSpec, dictScalars, PyHeap.lookup, PyHeap.deref,
    PyDict.get, memLookup, nihCallTrace, nihRootD, nihCritD, nihAdvD,
    nihNoticeD, nihAwardD, List.find?, List.filter,
    nat_beq_add_right, nat_beq_add_left, nat_beq_add_right_zero]

theorem nih_trace_frame (h : PyHeap) (q : Option String)
    (f t : Option PyDate) (off lim : Int) (hn : 5 ≤ h.next) (a : Nat)
    (ha : a ≤ 4) :
    memLookup (nihCallTrace h.next q f t off lim ++ h.mem) a =
      memLookup h.mem a := by
  apply memLookup_skip
  intro e he
  simp only [nihCallTrace, List.mem_cons, List.not_mem_nil, or_false] at he
  rcases he with rfl | rfl | rfl | rfl | rfl | rfl | rfl | rfl | rfl | rfl <;>
    simp only [] <;> omega

/-- The module-state invariant of `sources/nih.py`: the five template
objects hold their import-time contents and the allocator is past them. -/
def NihInv (h : PyHeap) : Prop :=
  5 ≤ h.next ∧ memLookup h.mem 0 = nihParamsDefault ∧
  memLookup h.mem 1 = nihCriteriaDefault ∧
  memLookup h.mem 2 = nihAwardDefault ∧
  memLookup h.mem 3 = nihNoticeDateDefault ∧
  memLookup h.mem 4 = nihAdvancedDefault

theorem nih_inv_heap0 : NihInv nihHeap0 :=
  ⟨by decide, rfl, rfl, rfl, rfl, rfl⟩

theorem nih_inv_preserved (h : PyHeap) (q : Option String)
    (f t : Option PyDate) (off lim : Int) (hi : NihInv h) :
    NihInv (NIH.format_query h q f t off lim).1 ∧
    (∀ a : Nat, a ≤ 4 →
      memLookup (NIH.format_query h q f t off lim).1.mem a =
        memLookup h.mem a) := by
  obtain ⟨hn, h0, h1, h2, h3, h4⟩ := hi
  rw [nih_fq_general h q f t off lim hn h0 h1 h2 h3 h4]
  refine ⟨⟨by show 5 ≤ h.next + 5; omega, ?_, ?_, ?_, ?_, ?_⟩, ?_⟩
  · exact (nih_trace_frame h q f t off lim hn 0 (by omega)).trans h0
  · exact (nih_trace_frame h q f t off lim hn 1 (by omega)).trans h1
  · exact (nih_trace_frame h q f t off lim hn 2 (by omega)).trans h2
  · exact (nih_trace_frame h q f t off lim hn 3 (by omega)).trans h3
  · exact (nih_trace_frame h q f t off lim hn 4 (by omega)).trans h4
  · intro a ha
    exact nih_trace_frame h q f t off lim hn a ha

theorem nih_call_view (h : PyHeap) (q : Option String)
    (f t : Option PyDate) (off lim : Int) (hi : NihInv h) :
    nihParamsView (NIH.format_query h q f t off lim).1
      (NIH.format_query h q f t off lim).2 = nihViewSpec q f t off lim := by
  obtain ⟨hn, h0, h1, h2, h3, h4⟩ := hi
  rw [nih_fq_general h q f t off lim hn h0 h1 h2 h3 h4]
  exact nih_trace_view h q f t off lim

/-- Shape of the copied Mellon bulk `variables` dict. -/
def mellonVarsD (lim off : Int) (term : String) (years : List Nat) : PyDict :=
  [("limit", .int lim), ("offset", .int off), ("term", .str term),
   ("sort", .str "MOST_RELEVANT"),
   ("years", .list (years.map (fun y => .int y))),
   ("grantMakingAreas", .list []), ("ideas", .list []),
   ("pastProgram", .bool false), ("amountRanges", .list []),
   ("country", .list []), ("state", .list []), ("features", .list [])]

/-- Shape of the copied Mellon bulk top-level dict. -/
def mellonRootD (v : Nat) : PyDict :=
  [("operationName", .str "GrantFilterQuery"), ("variables", .ref v),
   ("query", .str mellonBulkQueryStatement)]

/-- The store trace one `Mellon._format_query_params` call prepends: the
two fresh copies (variables at `b`, top level at `b+1`) and the shadowing
writes into the variables copy. -/
def mellonBulkTrace (b : Nat) (q : Option String) (f t : Option PyDate)
    (now : PyDate) (off lim : Int) : List (Nat × PyDict) :=
  [(b, mellonVarsD lim off (q.getD "") (mellonYears f t now)),
   (b, mellonVarsD 100 off (q.getD "") (mellonYears f t now)),
   (b, mellonVarsD 100 off (q.getD "") []),
   (b, mellonVarsD 100 0 (q.getD "") []),
   (b + 1, mellonRootD b), (b, mellonVarsD 100 0 "" [])]

/-- Shape of the copied Mellon single-grant top-level dict. -/
def mellonSRootD (v : Nat) : PyDict :=
  [("variables", .ref v), ("query", .str mellonSingleQueryStatement)]

/-- The store trace one `Mellon._get_funded_amount_for_grant` param build
prepends (variables copy at `b`, top level at `b+1`). -/
def mellonSingleTrace (b : Nat) (g : String) : List (Nat × PyDict) :=
  [(b, [("grantId", .str g)]), (b + 1, mellonSRootD b),
   (b, [("grantId", .str "")])]

set_option maxHeartbeats 1600000 in
theorem mellon_fqp_general (h : PyHeap) (q : Option String)
    (f t : Option PyDate) (now : PyDate) (off lim : Int)
    (h0 : memLookup h.mem 0 = mellonBulkDefault)
    (h1 : memLookup h.mem 1 = mellonVariablesDefault) :
    Mellon.format_query_params h q f t now off lim =
      (⟨h.next + 2, mellonBulkTrace h.next q f t now off lim ++ h.mem⟩,
       h.next + 1) := by
  simp [Mellon.format_query_params, dcVal_ref5, dcVal_ref4, dcVal_scalar,
    dcEntriesWith_cons, dcEntriesWith, PyHeap.alloc, PyHeap.write,
    PyHeap.deref, PyHeap.lookup, PyDict.set, PyDict.get, memLookup, h0, h1,
    mellonBulkDefault, mellonVariablesDefault, List.find?,
    nat_beq_add_right, nat_beq_add_left, nat_beq_add_right_zero,
    mellonBulkTrace, mellonVarsD, mellonRootD, Nat.add_assoc]

set_option maxHeartbeats 1600000 in
theorem mellon_fsp_general (h : PyHeap) (g : String)
    (h2 : memLookup h.mem 2 = mellonSingleDefault)
    (h3 : memLookup h.mem 3 = mellonSingleVariablesDefault) :
    Mellon.format_single_params h g =
      (⟨h.next + 2, mellonSingleTrace h.next g ++ h.mem⟩, h.next + 1) := by
  simp [Mellon.format_single_params, dcVal_ref5, dcVal_ref4, dcVal_scalar,
    dcEntriesWith_cons, dcEntriesWith, PyHeap.alloc, PyHeap.write,
    PyHeap.deref, PyHeap.lookup, PyDict.set, PyDict.get, memLookup, h2, h3,
    mellonSingleDefault, mellonSingleVariablesDefault, List.find?,
    nat_beq_add_right, nat_beq_add_left, nat_beq_add_right_zero,
    mellonSingleTrace, mellonSRootD, Nat.add_assoc]

/-- The observable content of a Mellon bulk params dict, as a function of
the arguments alone. -/
def mellonViewSpec (q : Option String) (f t : Option PyDate) (now : PyDate)
    (off lim : Int) : PyDict × PyDict :=
  ([("operationName", .str "GrantFilterQuery"),
    ("query", .str mellonBulkQueryStatement)],
   mellonVarsD lim off (q.getD "") (mellonYears f t now))

/-- The observable content of a Mellon single-grant params dict. -/
def mellonSingleViewSpec (g : String) : PyDict × PyDict :=
  ([("query", .str mellonSingleQueryStatement)], [("grantId", .str g)])

theorem mellon_bulk_trace_view (h : PyHeap) (q : Option String)
    (f t : Option PyDate) (now : PyDate) (off lim : Int) :
    mellonParamsView
      ⟨h.next + 2, mellonBulkTrace h.next q f t now off lim ++ h.mem⟩
      (h.next + 1) = mellonViewSpec q f t now off lim := by
  simp [mellonParamsView, mellonViewSpec, dictScalars, PyHeap.lookup,
    PyHeap.deref, PyDict.get, memLookup, mellonBulkTrace, mellonVarsD,
    mellonRootD, List.find?, List.filter,
    nat_beq_add_right, nat_beq_add_left, nat_beq_add_right_zero]

theorem mellon_single_trace_view (h : PyHeap) (g : String) :
    mellonParamsView ⟨h.next + 2, mellonSingleTrace h.next g ++ h.mem⟩
      (h.next + 1) = mellonSingleViewSpec g := by
  simp [mellonParamsView, mellonSingleViewSpec, dictScalars, PyHeap.lookup,
    PyHeap.deref, PyDict.get, memLookup, mellonSingleTrace, mellonSRootD,
    List.find?, List.filter,
    nat_beq_add_right, nat_beq_add_left, nat_beq_add_right_zero]

theorem mellon_bulk_trace_frame (h : PyHeap) (q : Option String)
    (f t : Option PyDate) (now : PyDate) (off lim : Int) (hn : 4 ≤ h.next)
    (a : Nat) (ha : a ≤ 3) :
    memLookup (mellonBulkTrace h.next q f t now off lim ++ h.mem) a =
      memLookup h.mem a := by
  apply memLookup_skip
  intro e he
  simp only [mellonBulkTrace, List.mem_cons, List.not_mem_nil, or_false] at he
  rcases he with rfl | rfl | rfl | rfl | rfl | rfl <;> simp only [] <;> omega

theorem mellon_single_trace_frame (h : PyHeap) (g : String)
    (hn : 4 ≤ h.next) (a : Nat) (ha : a ≤ 3) :
    memLookup (mellonSingleTrace h.next g ++ h.mem) a =
      memLookup h.mem a := by
  apply memLookup_skip
  intro e he
  simp only [mellonSingleTrace, List.mem_cons, List.not_mem_nil, or_false] at he
  rcases he with rfl | rfl | rfl <;> simp only [] <;> omega

/-- The module-state invariant of `sources/mellon.py`: the four template
objects hold their import-time contents and the allocator is past them. -/
def MellonInv (h : PyHeap) : Prop :=
  4 ≤ h.next ∧ memLookup h.mem 0 = mellonBulkDefault ∧
  memLookup h.mem 1 = mellonVariablesDefault ∧
  memLookup h.mem 2 = mellonSingleDefault ∧
  memLookup h.mem 3 = mellonSingleVariablesDefault

theorem mellon_inv_heap0 : MellonInv mellonHeap0 :=
  ⟨by decide, rfl, rfl, rfl, rfl⟩

theorem mellon_inv_preserved_bulk (h : PyHeap) (q : Option String)
    (f t : Option PyDate) (now : PyDate) (off lim : Int) (hi : MellonInv h) :
    MellonInv (Mellon.format_query_params h q f t now off lim).1 ∧
    (∀ a : Nat, a ≤ 3 →
      memLookup (Mellon.format_query_params h q f t now off lim).1.mem a =
        memLookup h.mem a) := by
  obtain ⟨hn, h0, h1, h2, h3⟩ := hi
  rw [mellon_fqp_general h q f t now off lim h0 h1]
  refine ⟨⟨by show 4 ≤ h.next + 2; omega, ?_, ?_, ?_, ?_⟩, ?_⟩
  · exact (mellon_bulk_trace_frame h q f t now off lim hn 0 (by omega)).trans h0
  · exact (mellon_bulk_trace_frame h q f t now off lim hn 1 (by omega)).trans h1
  · exact (mellon_bulk_trace_frame h q f t now off lim hn 2 (by omega)).trans h2
  · exact (mellon_bulk_trace_frame h q f t now off lim hn 3 (by omega)).trans h3
  · intro a ha
    exact mellon_bulk_trace_frame h q f t now off lim hn a ha

theorem mellon_inv_preserved_single (h : PyHeap) (g : String)
    (hi : MellonInv h) :
    MellonInv (Mellon.format_single_params h g).1 ∧
    (∀ a : Nat, a ≤ 3 →
      memLookup (Mellon.format_single_params h g).1.mem a =
        memLookup h.mem a) := by
  obtain ⟨hn, h0, h1, h2, h3⟩ := hi
  rw [mellon_fsp_general h g h2 h3]
  refine ⟨⟨by show 4 ≤ h.next + 2; omega, ?_, ?_, ?_, ?_⟩, ?_⟩
  · exact (mellon_single_trace_frame h g hn 0 (by omega)).trans h0
  · exact (mellon_single_trace_frame h g hn 1 (by omega)).trans h1
  · exact (mellon_single_trace_frame h g hn 2 (by omega)).trans h2
  · exact (mellon_single_trace_frame h g hn 3 (by omega)).trans h3
  · intro a ha
    exact mellon_single_trace_frame h g hn a ha

theorem mellon_bulk_call_view (h : PyHeap) (q : Option String)
    (f t : Option PyDate) (now : PyDate) (off lim : Int) (hi : MellonInv h) :
    mellonParamsView (Mellon.format_query_params h q f t now off lim).1
      (Mellon.format_query_params h q f t now off lim).2 =
      mellonViewSpec q f t now off lim := by
  rw [mellon_fqp_general h q f t now off lim hi.2.1 hi.2.2.1]
  exact mellon_bulk_trace_view h q f t now off lim

theorem mellon_single_call_view (h : PyHeap) (g : String)
    (hi : MellonInv h) :
    mellonParamsView (Mellon.format_single_params h g).1
      (Mellon.format_single_params h g).2 = mellonSingleViewSpec g := by
  rw [mellon_fsp_general h g hi.2.2.2.1 hi.2.2.2.2]
  exact mellon_single_trace_view h g

/-- C9: no retrieval call mutates the module-level default request-template
dicts.  The import-time module states satisfy the template invariant; every
`Mellon._format_query_params`, `Mellon._get_funded_amount_for_grant` param
build, and `NIH._format_query` call preserves it (deep-copying first, so the
template objects are untouched — their contents after any sequence of calls
equal the import-time contents), and under the invariant the observable
content of the built params dict is a function of the call arguments alone,
so two calls with equal arguments produce equal parameter dicts. -/
theorem claim_C9 :
    MellonInv mellonHeap0 ∧ NihInv nihHeap0 ∧
    (∀ (h : PyHeap) (q : Option String) (f t : Option PyDate) (now : PyDate)
        (off lim : Int), MellonInv h →
      MellonInv (Mellon.format_query_params h q f t now off lim).1 ∧
      (∀ a : Nat, a ≤ 3 →
        memLookup (Mellon.format_query_params h q f t now off lim).1.mem a =
          memLookup h.mem a) ∧
      mellonParamsView (Mellon.format_query_params h q f t now off lim).1
        (Mellon.format_query_params h q f t now off lim).2 =
        mellonViewSpec q f t now off lim) ∧
    (∀ (h : PyHeap) (g : String), MellonInv h →
      MellonInv (Mellon.format_single_params h g).1 ∧
      (∀ a : Nat, a ≤ 3 →
        memLookup (Mellon.format_single_params h g).1.mem a =
          memLookup h.mem a) ∧
      mellonParamsView (Mellon.format_single_params h g).1
        (Mellon.format_single_params h g).2 = mellonSingleViewSpec g) ∧
    (∀ (h : PyHeap) (q : Option String) (f t : Option PyDate)
        (off lim : Int), NihInv h →
      NihInv (NIH.format_query h q f t off lim).1 ∧
      (∀ a : Nat, a ≤ 4 →
        memLookup (NIH.format_query h q f t off lim).1.mem a =
          memLookup h.mem a) ∧
      nihParamsView (NIH.format_query h q f t off lim).1
        (NIH.format_query h q f t off lim).2 = nihViewSpec q f t off lim) := by
  refine ⟨mellon_inv_heap0, nih_inv_heap0, ?_, ?_, ?_⟩
  · intro h q f t now off lim hi
    exact ⟨(mellon_inv_preserved_bulk h q f t now off lim hi).1,
      (mellon_inv_preserved_bulk h q f t now off lim hi).2,
      mellon_bulk_call_view h q f t now off lim hi⟩
  · intro h g hi
    exact ⟨(mellon_inv_preserved_single h g hi).1,
      (mellon_inv_preserved_single h g hi).2,
      mellon_single_call_view h g hi⟩
  · intro h q f t off lim hi
    exact ⟨(nih_inv_preserved h q f t off lim hi).1,
      (nih_inv_preserved h q f t off lim hi).2,
      nih_call_view h q f t off lim hi⟩

/-- Witness for C9: a concrete `NIH._format_query` call on the import-time
module heap leaves the templates intact and builds the expected params. -/
theorem claim_C9_witness :
    NihInv (NIH.format_query nihHeap0 (some "heart") (some ⟨2020, 1, 2⟩)
      Option.none 0 500).1 ∧
    (∀ a : Nat, a ≤ 4 →
      memLookup (NIH.format_query nihHeap0 (some "heart") (some ⟨2020, 1, 2⟩)
        Option.none 0 500).1.mem a = memLookup nihHeap0.mem a) ∧
    nihParamsView (NIH.format_query nihHeap0 (some "heart")
        (some ⟨2020, 1, 2⟩) Option.none 0 500).1
      (NIH.format_query nihHeap0 (some "heart") (some ⟨2020, 1, 2⟩)
        Option.none 0 500).2 =
      nihViewSpec (some "heart") (some ⟨2020, 1, 2⟩) Option.none 0 500 :=
  claim_C9.2.2.2.2 nihHeap0 (some "heart") (some ⟨2020, 1, 2⟩) Option.none
    0 500 ⟨by decide, rfl, rfl, rfl, rfl, rfl⟩

/-! ## Lemmas: drivers, concatenation, deduplication -/

theorem collectSkip_eq (f : Nat → Except PyErr (Option DataFrame)) :
    ∀ offs : List Nat, (∀ off ∈ offs, ∃ r, f off = .ok r) →
      collectSkip f offs = .ok (offs.filterMap (fun o =>
        match f o with
        | .ok v => v
        | .error _ => Option.none)) := by
  intro offs
  induction offs with
  | nil => intro _; rfl
  | cons o rest ih =>
    intro hok
    obtain ⟨r, hr⟩ := hok o (List.mem_cons_self o rest)
    have hrest := ih (fun off hoff => hok off (List.mem_cons_of_mem _ hoff))
    cases r with
    | none =>
      simp only [collectSkip, hr, hrest, List.filterMap_cons]
      rfl
    | some c =>
      simp only [collectSkip, hr, hrest, List.filterMap_cons]
      rfl

theorem filterMap_eq_filter_map (j : Nat) (g : Nat → DataFrame)
    (h? : Nat → Option DataFrame) :
    ∀ l : List Nat,
      (∀ o ∈ l, h? o = if o = j then Option.none else some (g o)) →
      l.filterMap h? = (l.filter (fun o => !(o == j))).map g := by
  intro l
  induction l with
  | nil => intro _; rfl
  | cons o rest ih =>
    intro hp
    have ho := hp o (List.mem_cons_self o rest)
    have hrest := ih (fun o ho => hp o (List.mem_cons_of_mem _ ho))
    by_cases hoj : o = j
    · subst hoj
      simp only [if_pos rfl] at ho
      simp [List.filterMap_cons, ho, hrest]
    · simp only [if_neg hoj] at ho
      simp [List.filterMap_cons, ho, hrest, List.filter_cons, hoj]

theorem filterMap_all_some (g : Nat → DataFrame) (h? : Nat → Option DataFrame) :
    ∀ l : List Nat, (∀ o ∈ l, h? o = some (g o)) →
      l.filterMap h? = l.map g := by
  intro l
  induction l with
  | nil => intro _; rfl
  | cons o rest ih =>
    intro hp
    have ho := hp o (List.mem_cons_self o rest)
    have hrest := ih (fun o ho => hp o (List.mem_cons_of_mem _ ho))
    simp [List.filterMap_cons, ho, hrest]

theorem filterMap_all_none (h? : Nat → Option DataFrame) :
    ∀ l : List Nat, (∀ o ∈ l, h? o = Option.none) → l.filterMap h? = [] := by
  intro l
  induction l with
  | nil => intro _; rfl
  | cons o rest ih =>
    intro hp
    simp [List.filterMap_cons, hp o (List.mem_cons_self o rest),
      ih (fun o ho => hp o (List.mem_cons_of_mem _ ho))]

theorem pd_concat_nil : pd_concat [] = .error (.valueError "No objects to concatenate") := rfl

theorem pd_concat_ok (ds : List DataFrame) (hne : ds ≠ []) :
    ∃ df, pd_concat ds = .ok df := by
  unfold pd_concat pd_concatO
  cases ds with
  | nil => exact absurd rfl hne
  | cons d rest => exact ⟨_, rfl⟩

theorem colsUnion_aux (L : List String) :
    ∀ ls : List (List String), (∀ l ∈ ls, l = L) →
      List.foldl (fun acc cs => acc ++ cs.filter (fun c => !(acc.contains c)))
        L ls = L := by
  intro ls
  induction ls with
  | nil => intro _; rfl
  | cons x rest ih =>
    intro hall
    have hx := hall x (List.mem_cons_self x rest)
    subst hx
    have hfilter : x.filter (fun c => !(x.contains c)) = [] := by
      apply List.filter_eq_nil_iff.mpr
      intro a ha
      simp [ha]
    rw [List.foldl_cons, hfilter, List.append_nil]
    exact ih (fun l hl => hall l (List.mem_cons_of_mem _ hl))

theorem colsUnion_const (L : List String) :
    ∀ ls : List (List String), ls ≠ [] → (∀ l ∈ ls, l = L) →
      colsUnion ls = L := by
  intro ls hne hall
  cases ls with
  | nil => exact absurd rfl hne
  | cons x rest =>
    have hx := hall x (List.mem_cons_self x rest)
    subst hx
    unfold colsUnion
    rw [List.foldl_cons]
    have hfilter : x.filter (fun c => !(List.contains [] c)) = x := by
      simp [List.contains]
    rw [List.nil_append, hfilter]
    exact colsUnion_aux x rest (fun l hl => hall l (List.mem_cons_of_mem _ hl))

theorem pd_concatO_cols (ds : List (Option DataFrame)) (L : List String) (df : DataFrame)
    (hok : pd_concatO ds = .ok df)
    (hall : ∀ d ∈ ds.filterMap id, d.cols = L) : df.cols = L := by
  unfold pd_concatO at hok
  cases hds : ds.filterMap id with
  | nil => rw [hds] at hok; exact absurd hok (by simp)
  | cons d rest =>
    rw [hds] at hok
    injection hok with hok
    subst hok
    show colsUnion ((d :: rest).map (fun d => d.cols)) = L
    apply colsUnion_const
    · simp
    · intro l hl
      simp only [List.mem_map] at hl
      obtain ⟨d2, hd2, rfl⟩ := hl
      exact hall d2 (hds ▸ hd2)

theorem pd_concatO_length (ds : List (Option DataFrame)) (df : DataFrame)
    (hok : pd_concatO ds = .ok df) :
    df.rows.length = ((ds.filterMap id).map (fun d => d.rows.length)).sum := by
  unfold pd_concatO at hok
  cases hds : ds.filterMap id with
  | nil => rw [hds] at hok; exact absurd hok (by simp)
  | cons d rest =>
    rw [hds] at hok
    injection hok with hok
    subst hok
    simp [List.length_flatMap, Function.comp_def, List.length_map]

theorem dedupByAux_nodup (key : String) :
    ∀ (rows : List Row) (seen : List Cell),
      ((dedupByAux key rows seen).map (fun r => r.get key)).Nodup ∧
      (∀ r ∈ dedupByAux key rows seen, r.get key ∉ seen) := by
  intro rows
  induction rows with
  | nil => intro seen; exact ⟨List.nodup_nil, fun r h => absurd h (List.not_mem_nil r)⟩
  | cons r rest ih =>
    intro seen
    by_cases hv : r.get key ∈ seen
    · simp only [dedupByAux, if_pos hv]
      exact ih seen
    · have ⟨ihn, ihs⟩ := ih (r.get key :: seen)
      refine ⟨?_, ?_⟩
      · simp only [dedupByAux, if_neg hv, List.map_cons, List.nodup_cons]
        refine ⟨?_, ihn⟩
        intro hmem
        simp only [List.mem_map] at hmem
        obtain ⟨r2, hr2, hkey⟩ := hmem
        exact ihs r2 hr2 (by rw [hkey]; exact List.mem_cons_self _ _)
      · intro r2 hr2
        simp only [dedupByAux, if_neg hv, List.mem_cons] at hr2
        rcases hr2 with rfl | hr2
        · exact hv
        · exact fun hmem => ihs r2 hr2 (List.mem_cons_of_mem _ hmem)

theorem dedupByAux_first (key : String) :
    ∀ (rows : List Row) (seen : List Cell) (r : Row),
      r ∈ dedupByAux key rows seen →
      rows.find? (fun r2 => r2.get key == r.get key) = some r := by
  intro rows
  induction rows with
  | nil => intro seen r h; simp [dedupByAux] at h
  | cons r0 rest ih =>
    intro seen r h
    simp only [dedupByAux] at h
    by_cases hv : r0.get key ∈ seen
    · rw [if_pos hv] at h
      have hne : r.get key ≠ r0.get key := by
        intro he
        exact (dedupByAux_nodup key rest seen).2 r h (by rw [he]; exact hv)
      have hbeq : (r0.get key == r.get key) = false :=
        beq_eq_false_iff_ne.mpr (fun he => hne he.symm)
      rw [List.find?_cons_of_neg _ (by simp [hbeq])]
      exact ih seen r h
    · rw [if_neg hv] at h
      rcases List.mem_cons.mp h with rfl | h2
      · exact List.find?_cons_of_pos _ (by simp)
      · have hne : r.get key ≠ r0.get key := by
          intro he
          exact (dedupByAux_nodup key rest (r0.get key :: seen)).2 r h2
            (by rw [he]; exact List.mem_cons_self _ _)
        have hbeq : (r0.get key == r.get key) = false :=
          beq_eq_false_iff_ne.mpr (fun he => hne he.symm)
        rw [List.find?_cons_of_neg _ (by simp [hbeq])]
        exact ih _ r h2

theorem mellon_getData_eq (rm : MellonRemote) (q : Option String)
    (roe : Bool) (total : Nat) (ht : rm.totalGrants = .ok total)
    (hok : ∀ off ∈ rangeStep total 100,
      ∃ r, Mellon.get_chunk rm q off roe = .ok r) :
    Mellon.get_data rm q roe =
      pd_concat ((rangeStep total 100).filterMap (fun o =>
        match Mellon.get_chunk rm q o roe with
        | .ok v => v
        | .error _ => Option.none)) := by
  unfold Mellon.get_data
  rw [ht]
  show (collectSkip (fun off => Mellon.get_chunk rm q off roe)
      (rangeStep total 100)).bind pd_concat = _
  rw [collectSkip_eq _ _ hok]
  rfl

theorem nih_getData_eq (rm : NIHRemote) (q : Option String)
    (roe : Bool) (total : Nat) (ht : rm.total = .ok total)
    (hlt : total < 10000)
    (hok : ∀ off ∈ rangeStep total 500,
      ∃ r, NIH.get_chunk rm q off roe = .ok r) :
    NIH.get_data rm q roe =
      pd_concat ((rangeStep total 500).filterMap (fun o =>
        match NIH.get_chunk rm q o roe with
        | .ok v => v
        | .error _ => Option.none)) := by
  unfold NIH.get_data
  rw [ht]
  show (if total ≥ 10000 then _ else _ : Except PyErr DataFrame) = _
  rw [if_neg (by omega)]
  show (collectSkip (fun off => NIH.get_chunk rm q off roe)
      (rangeStep total 500)).bind pd_concat = _
  rw [collectSkip_eq _ _ hok]
  rfl

theorem except_bind_ok {α β : Type} (a : α) (f : α → Except PyErr β) :
    (Except.ok a : Except PyErr α) >>= f = f a := rfl

theorem except_bind_err {α β : Type} (e : PyErr) (f : α → Except PyErr β) :
    (Except.error e : Except PyErr α) >>= f = .error e := rfl

theorem sloan_getData_eq (rm : SloanRemote) (q : Option String)
    (fromDt toDt : Option PyDate) (roe : Bool) (total : Nat)
    (ht : rm.total = .ok total)
    (hok : ∀ off ∈ rangeStep total 3000,
      ∃ r, Sloan.get_chunk rm q off roe = .ok r) :
    Sloan.get_data rm q fromDt toDt roe =
      (match (rangeStep total 3000).filterMap (fun o =>
          match Sloan.get_chunk rm q o roe with
          | .ok v => v
          | .error _ => Option.none) with
       | [] => .ok (emptyDf ALL_DATASET_FIELDS)
       | chunks => do
          let df ← pd_concat chunks
          let df ← match fromDt with
            | some f => df.filterGeInt "year" (f.year : Int)
            | Option.none => pure df
          let df ← match toDt with
            | some t => df.filterLeInt "year" (t.year : Int)
            | Option.none => pure df
          pure df) := by
  unfold Sloan.get_data
  rw [ht]
  show Except.ok total >>= _ = _
  rw [except_bind_ok]
  show collectSkip _ _ >>= _ = _
  rw [collectSkip_eq _ _ hok, except_bind_ok]
  generalize (rangeStep total 3000).filterMap _ = chunks
  cases chunks <;> rfl

theorem nsf_get_chunk_congr (rm rm2 : NSFRemote) (off : Nat) (roe : Bool)
    (h : rm2.award off = rm.award off) :
    NSF.get_chunk rm2 off roe = NSF.get_chunk rm off roe := by
  unfold NSF.get_chunk
  rw [h]

theorem nsf_loop_eq (rm : NSFRemote) (roe : Bool) :
    ∀ (k : Nat) (e : Nat → Option DataFrame) (fuel offset : Nat)
      (acc : List (Option DataFrame)),
      (∀ j ≤ k, NSF.get_chunk rm (offset + 25 * j) roe = .ok (e j)) →
      (∀ j < k, ∀ d, e j = some d → ¬ d.rows.length < 25) →
      (∀ d, e k = some d → d.rows.length < 25) →
      (∃ d, e k = some d) →
      ∀ _hf : k < fuel,
      NSF.loop rm roe fuel offset acc =
        .ok (some (acc ++ (List.range (k + 1)).map e)) := by
  intro k
  induction k with
  | zero =>
    intro e fuel offset acc hok hlong hshort hsome hfuel
    obtain ⟨d0, hd0⟩ := hsome
    match fuel, hfuel with
    | fuel + 1, _ =>
      have h0 := hok 0 (Nat.le_refl 0)
      rw [Nat.mul_zero, Nat.add_zero, hd0] at h0
      simp only [NSF.loop, h0, except_bind_ok]
      rw [if_pos (hshort d0 hd0)]
      show Except.ok (some (acc ++ [some d0])) = _
      rw [show (List.range 1).map e = [e 0] from rfl, hd0]
  | succ k ih =>
    intro e fuel offset acc hok hlong hshort hsome hfuel
    match fuel, hfuel with
    | fuel + 1, hfuel =>
      have h0 := hok 0 (Nat.zero_le _)
      rw [Nat.mul_zero, Nat.add_zero] at h0
      have hrec := ih (fun j => e (j + 1)) fuel (offset + 25) (acc ++ [e 0])
        (fun j hj => by
          have hthis := hok (j + 1) (by omega)
          rw [show offset + 25 * (j + 1) = offset + 25 + 25 * j from by ring]
            at hthis
          exact hthis)
        (fun j hj d hd => hlong (j + 1) (by omega) d hd)
        (fun d hd => hshort d hd)
        hsome
        (by omega)
      have hshift : (List.range (k + 1 + 1)).map e =
          e 0 :: (List.range (k + 1)).map (fun j => e (j + 1)) := by
        rw [List.range_succ_eq_map]
        simp [Function.comp_def]
      cases he0 : e 0 with
      | none =>
        rw [he0] at h0 hrec
        simp only [NSF.loop, h0, except_bind_ok]
        rw [hrec, hshift, he0]
        simp
      | some c =>
        have hc := hlong 0 (by omega) c he0
        rw [he0] at h0 hrec
        simp only [NSF.loop, h0, except_bind_ok]
        rw [if_neg hc, hrec, hshift, he0]
        simp

theorem nsf_loop_allfail (rm : NSFRemote) :
    ∀ (fuel offset : Nat) (acc : List (Option DataFrame)),
      (∀ off, NSF.get_chunk rm off false = .ok Option.none) →
      NSF.loop rm false fuel offset acc = .ok Option.none := by
  intro fuel
  induction fuel with
  | zero => intro offset acc _; rfl
  | succ fuel ih =>
    intro offset acc hfail
    simp only [NSF.loop, hfail offset, except_bind_ok]
    exact ih (offset + 25) (acc ++ [Option.none]) hfail

theorem nsf_getData_eq (rm : NSFRemote) (roe : Bool) (fuel : Nat)
    (chunks : List (Option DataFrame))
    (hloop : NSF.loop rm roe fuel 0 [] = .ok (some chunks)) :
    NSF.get_data rm roe fuel =
      (pd_concatO chunks).map (fun d => some (d.dropDuplicatesBy "id")) := by
  unfold NSF.get_data
  rw [hloop]
  rw [show (Except.ok (some chunks) : Except PyErr (Option (List (Option DataFrame)))) >>= _ = _ from except_bind_ok _ _]
  cases hc : pd_concatO chunks with
  | ok d => simp [hc, Except.map, except_bind_ok]
  | error e => simp [hc, Except.map, except_bind_err]

/-! ## Claims -/

/-- C5: when the up-front NIH total-count query reports a total at or above
the 10000 ceiling, `get_data` raises the narrow-your-search `ValueError`
before issuing any page request — the result is this error for every page
function and regardless of `raise_on_error`. -/
theorem claim_C5 (t : Nat) (pages : Nat → Except PyErr (List Row))
    (q : Option String) (roe : Bool) (ht : 10000 ≤ t) :
    NIH.get_data ⟨.ok t, pages⟩ q roe =
      .error (.valueError ("Total grants is " ++ toString t ++
        ", which is too many to fetch. Please narrow your search.")) := by
  unfold NIH.get_data
  show Except.ok t >>= _ = _
  rw [except_bind_ok]
  exact if_pos (by omega)

/-- Witness for C5 at the exact ceiling. -/
theorem claim_C5_witness :
    NIH.get_data ⟨.ok 10000, fun _ => .ok []⟩ Option.none true =
      .error (.valueError ("Total grants is " ++ toString 10000 ++
        ", which is too many to fetch. Please narrow your search.")) :=
  claim_C5 10000 (fun _ => .ok []) Option.none true (by decide)

/-- A Templeton remote whose bulk fetch yields a two-column raw table but a
link list of mismatched length, so `df["link"] = all_link_urls` raises after
`df` was bound to the raw table. -/
def templetonBadRemote : TempletonRemote :=
  ⟨.ok ["l1", "l2"],
   .ok (⟨["ID", "Title"], [[("ID", .int 1), ("Title", .str "T")]]⟩,
        ["l1", "l2"])⟩

/-- C1 (code bug): with `raise_on_error=false` and no date bounds, a failure
after the bulk table was read makes `Templeton.get_data` return the raw
scraped table itself — its column set is the raw headers, not the canonical
field list, contradicting the schema invariant asserted for every returned
table (`assert set(df.columns) == set(ALL_DATASET_FIELDS)` in the test
helper). -/
theorem claim_C1 :
    Templeton.get_data templetonBadRemote Option.none Option.none Option.none
      false = .ok ⟨["ID", "Title"], [[("ID", .int 1), ("Title", .str "T")]]⟩ ∧
    "institution" ∈ ALL_DATASET_FIELDS ∧
    "institution" ∉ (["ID", "Title"] : List String) := by
  exact ⟨rfl, by decide, by decide⟩

/-- A Templeton remote whose bulk table contains one grant from 1990 and one
from 2021, both matched by the search links. -/
def templetonC4Remote : TempletonRemote :=
  ⟨.ok ["l1", "l2"],
   .ok (⟨["ID", "Title", "Start Year"],
         [[("ID", .int 1), ("Title", .str "A"), ("Start Year", .int 1990)],
          [("ID", .int 2), ("Title", .str "B"), ("Start Year", .int 2021)]]⟩,
        ["l1", "l2"])⟩

/-- The table the code actually returns for that remote with the date range
2020-01-01 .. 2022-01-01. -/
def templetonC4Result : DataFrame :=
  match Templeton.get_data templetonC4Remote (some "software")
      (some ⟨2020, 1, 1⟩) (some ⟨2022, 1, 1⟩) true with
  | .ok df => df
  | .error _ => ⟨[], []⟩

/-- C4 (code bug): `Templeton.get_data` returns from inside the `try` before
the year-filter lines, so the success path never applies the year
post-filter the docstring promises — with bounds 2020..2022 the returned
table still contains the year-1990 row. -/
theorem claim_C4 :
    Templeton.get_data templetonC4Remote (some "software") (some ⟨2020, 1, 1⟩)
      (some ⟨2022, 1, 1⟩) true = .ok templetonC4Result ∧
    Cell.int 1990 ∈ templetonC4Result.rows.map (fun r => r.get "year") := by
  exact ⟨rfl, by decide⟩

/-- A Mellon remote reporting 200 grants whose every page returns the same
single entity (id `"A"`). -/
def mellonDupRemote : MellonRemote :=
  ⟨.ok 200,
   fun _ => .ok [[("title", .str "T"), ("grantMakingArea", .str "G"),
     ("description", .str "D"), ("dateAwarded", .str "2020-01-05"),
     ("id", .str "A"), ("grantee", .str "I")]],
   fun _ => .ok (.float 1)⟩

/-- The table Mellon returns for that remote. -/
def mellonDupResult : DataFrame :=
  match Mellon.get_data mellonDupRemote (some "q") true with
  | .ok df => df
  | .error _ => ⟨[], []⟩

/-- Counterexample to C2: with two pages sharing the id `"A"`,
`Mellon.get_data` returns both rows — its `id` column has a repeated value,
because Mellon concatenates pages without any deduplication. -/
theorem counter_C2 :
    Mellon.get_data mellonDupRemote (some "q") true = .ok mellonDupResult ∧
    ¬ (mellonDupResult.rows.map (fun r => r.get "id")).Nodup := by
  exact ⟨rfl, by decide⟩

theorem setConst_length (df : DataFrame) (c : String) (v : Cell) :
    (df.setConst c v).rows.length = df.rows.length := by
  simp [DataFrame.setConst]

theorem rename_length (df : DataFrame) (m : List (String × String)) :
    (df.rename m).rows.length = df.rows.length := by
  simp [DataFrame.rename]

theorem fill_missing_length (fs : List String) :
    ∀ df : DataFrame,
      (fs.foldl (fun d f => if f ∈ d.cols then d else d.setConst f .none)
        df).rows.length = df.rows.length := by
  induction fs with
  | nil => intro df; rfl
  | cons f rest ih =>
    intro df
    simp only [List.foldl_cons]
    rw [ih]
    by_cases h : f ∈ df.cols
    · simp [h]
    · simp [h, setConst_length]

theorem select_length (df : DataFrame) (cs : List String) (out : DataFrame)
    (h : df.select cs = .ok out) : out.rows.length = df.rows.length := by
  unfold DataFrame.select at h
  by_cases hc : cs.all (fun c => df.cols.contains c)
  · rw [if_pos hc] at h
    injection h with h
    rw [← h]
    simp
  · rw [if_neg hc] at h
    exact absurd h (by simp)

theorem templeton_format_length (df : DataFrame) (q : Option String)
    (out : DataFrame) (h : Templeton.format_dataframe df q = .ok out) :
    out.rows.length = df.rows.length := by
  have h2 := select_length _ ALL_DATASET_FIELDS out h
  rw [h2, fill_missing_length, rename_length, setConst_length, setConst_length]

/-- C2 (amended): only NSF deduplicates — a successful `NSF.get_data` run
returns a table whose `id` column has no repeated values and whose rows are
the first occurrences (in concatenation order) of each id, at sequential
positional indices.  The other adapters never deduplicate by id: Mellon and
NIH return the bare concatenation of their pages, keeping every row,
duplicate ids included; Sloan, called without date bounds, likewise returns
the bare concatenation of its (nonempty) pages keeping every row (with date
bounds its separate year post-filter can drop rows, so the keep-every-row
reading fails there for a different reason); and Templeton, which paginates
nothing, returns on its success path the formatted link-filtered bulk table
with exactly one output row per matching raw row, duplicates included. -/
theorem claim_C2 :
    (∀ (rm : NSFRemote) (roe : Bool) (fuel : Nat) (df : DataFrame),
      NSF.get_data rm roe fuel = .ok (some df) →
      (df.rows.map (fun r => r.get "id")).Nodup ∧
      ∃ pre : DataFrame, df = pre.dropDuplicatesBy "id" ∧
        ∀ r ∈ df.rows,
          pre.rows.find? (fun r2 => r2.get "id" == r.get "id") = some r) ∧
    (∀ (rm : MellonRemote) (q : Option String) (roe : Bool) (total : Nat)
        (g : Nat → DataFrame),
      rm.totalGrants = .ok total →
      (∀ off ∈ rangeStep total 100,
        Mellon.get_chunk rm q off roe = .ok (some (g off))) →
      Mellon.get_data rm q roe = pd_concat ((rangeStep total 100).map g) ∧
      ∀ df, Mellon.get_data rm q roe = .ok df →
        df.rows.length =
          ((rangeStep total 100).map (fun o => (g o).rows.length)).sum) ∧
    (∀ (rm : NIHRemote) (q : Option String) (roe : Bool) (total : Nat)
        (g : Nat → DataFrame),
      rm.total = .ok total → total < 10000 →
      (∀ off ∈ rangeStep total 500,
        NIH.get_chunk rm q off roe = .ok (some (g off))) →
      NIH.get_data rm q roe = pd_concat ((rangeStep total 500).map g) ∧
      ∀ df, NIH.get_data rm q roe = .ok df →
        df.rows.length =
          ((rangeStep total 500).map (fun o => (g o).rows.length)).sum) ∧
    (∀ (rm : SloanRemote) (q : Option String) (roe : Bool) (total : Nat)
        (g : Nat → DataFrame),
      rm.total = .ok total →
      (∀ off ∈ rangeStep total 3000,
        Sloan.get_chunk rm q off roe = .ok (some (g off))) →
      rangeStep total 3000 ≠ [] →
      Sloan.get_data rm q Option.none Option.none roe =
        pd_concat ((rangeStep total 3000).map g) ∧
      ∀ df, Sloan.get_data rm q Option.none Option.none roe = .ok df →
        df.rows.length =
          ((rangeStep total 3000).map (fun o => (g o).rows.length)).sum) ∧
    (∀ (rm : TempletonRemote) (q : Option String)
        (fromDt toDt : Option PyDate) (roe : Bool) (rel links : List String)
        (tbl df2 out : DataFrame),
      rm.searchLinks = .ok rel →
      rm.bulk = .ok (tbl, links) →
      tbl.setColList "link" (links.map Cell.str) = .ok df2 →
      Templeton.format_dataframe
        ⟨df2.cols, df2.rows.filter
          (fun r => cellInStrList (r.get "link") rel)⟩ q = .ok out →
      Templeton.get_data rm q fromDt toDt roe = .ok out ∧
      out.rows.length =
        (df2.rows.filter (fun r => cellInStrList (r.get "link") rel)).length) := by
  refine ⟨?_, ?_, ?_, ?_, ?_⟩
  · intro rm roe fuel df hok
    unfold NSF.get_data at hok
    cases hloop : NSF.loop rm roe fuel 0 [] with
    | error e =>
      rw [hloop] at hok
      exact absurd hok (by simp [except_bind_err])
    | ok res =>
      cases res with
      | none =>
        rw [hloop] at hok
        rw [show (Except.ok (Option.none : Option (List (Option DataFrame)))
            : Except PyErr _) >>= _ = _ from except_bind_ok _ _] at hok
        exact absurd hok (by simp [pure, Except.pure])
      | some chunks =>
        have heq := nsf_getData_eq rm roe fuel chunks hloop
        unfold NSF.get_data at heq
        rw [heq] at hok
        cases hc : pd_concatO chunks with
        | error e => rw [hc] at hok; exact absurd hok (by simp [Except.map])
        | ok pre =>
          rw [hc] at hok
          simp only [Except.map] at hok
          injection hok with hok
          injection hok with hok
          refine ⟨?_, pre, hok.symm, ?_⟩
          · rw [← hok]
            exact (dedupByAux_nodup "id" pre.rows []).1
          · intro r hr
            rw [← hok] at hr
            exact dedupByAux_first "id" pre.rows [] r hr
  · intro rm q roe total g ht hok
    have heq := mellon_getData_eq rm q roe total ht
      (fun off hoff => ⟨some (g off), hok off hoff⟩)
    have hfm : (rangeStep total 100).filterMap (fun o =>
        match Mellon.get_chunk rm q o roe with
        | .ok v => v
        | .error _ => Option.none) = (rangeStep total 100).map g := by
      apply filterMap_all_some
      intro o ho
      rw [hok o ho]
    rw [hfm] at heq
    refine ⟨heq, ?_⟩
    intro df hdf
    rw [heq] at hdf
    have hlen := pd_concatO_length _ df hdf
    rw [hlen]
    have hid : List.filterMap id (List.map some (List.map g (rangeStep total 100)))
        = List.map g (rangeStep total 100) := by
      rw [List.filterMap_map]
      simp
    rw [hid, List.map_map]
    simp [Function.comp_def]
  · intro rm q roe total g ht hlt hok
    have heq := nih_getData_eq rm q roe total ht hlt
      (fun off hoff => ⟨some (g off), hok off hoff⟩)
    have hfm : (rangeStep total 500).filterMap (fun o =>
        match NIH.get_chunk rm q o roe with
        | .ok v => v
        | .error _ => Option.none) = (rangeStep total 500).map g := by
      apply filterMap_all_some
      intro o ho
      rw [hok o ho]
    rw [hfm] at heq
    refine ⟨heq, ?_⟩
    intro df hdf
    rw [heq] at hdf
    have hlen := pd_concatO_length _ df hdf
    rw [hlen]
    have hid : List.filterMap id (List.map some (List.map g (rangeStep total 500)))
        = List.map g (rangeStep total 500) := by
      rw [List.filterMap_map]
      simp
    rw [hid, List.map_map]
    simp [Function.comp_def]
  · intro rm q roe total g ht hok hne
    have heq := sloan_getData_eq rm q Option.none Option.none roe total ht
      (fun off hoff => ⟨some (g off), hok off hoff⟩)
    have hfm : (rangeStep total 3000).filterMap (fun o =>
        match Sloan.get_chunk rm q o roe with
        | .ok v => v
        | .error _ => Option.none) = (rangeStep total 3000).map g := by
      apply filterMap_all_some
      intro o ho
      rw [hok o ho]
    rw [hfm] at heq
    have hmain : Sloan.get_data rm q Option.none Option.none roe =
        pd_concat ((rangeStep total 3000).map g) := by
      rw [heq]
      cases hcl : (rangeStep total 3000).map g with
      | nil =>
        rw [List.map_eq_nil_iff] at hcl
        exact absurd hcl hne
      | cons c rest =>
        cases hconc : pd_concat (c :: rest) with
        | ok df => simp [hconc, except_bind_ok, pure, Except.pure]
        | error e2 => simp [hconc, except_bind_err]
    refine ⟨hmain, ?_⟩
    intro df hdf
    rw [hmain] at hdf
    have hlen := pd_concatO_length _ df hdf
    rw [hlen]
    have hid : List.filterMap id (List.map some (List.map g (rangeStep total 3000)))
        = List.map g (rangeStep total 3000) := by
      rw [List.filterMap_map]
      simp
    rw [hid, List.map_map]
    simp [Function.comp_def]
  · intro rm q fromDt toDt roe rel links tbl df2 out hsl hbulk hset hfmt
    constructor
    · simp only [Templeton.get_data, hsl, hbulk, hset, hfmt]
    · exact templeton_format_length _ q out hfmt

/-- An NSF remote whose every response lacks the `award` key (empty result
set). -/
def nsfEmptyRemote : NSFRemote := ⟨fun _ => .ok Option.none⟩

/-- The frame a successful run on that remote returns. -/
def nsfEmptyResult : DataFrame :=
  match NSF.get_data nsfEmptyRemote true 1 with
  | .ok (some df) => df
  | _ => ⟨[], []⟩

/-- Witness for C2 on a concrete NSF run. -/
theorem claim_C2_witness :
    (nsfEmptyResult.rows.map (fun r => r.get "id")).Nodup ∧
    ∃ pre : DataFrame, nsfEmptyResult = pre.dropDuplicatesBy "id" ∧
      ∀ r ∈ nsfEmptyResult.rows,
        pre.rows.find? (fun r2 => r2.get "id" == r.get "id") = some r :=
  claim_C2.1 nsfEmptyRemote true 1 nsfEmptyResult (by rfl)

/-- A Sloan remote whose scraped total count is zero. -/
def sloanZeroRemote : SloanRemote := ⟨.ok 0, fun _ => .error (.transport 500)⟩

/-- Counterexample to C8: with the default `raise_on_error=true` and a zero
total, `Sloan.get_data` returns an empty table (zero rows) instead of
raising — the empty remote result set is returned silently. -/
theorem counter_C8 :
    Sloan.get_data sloanZeroRemote Option.none Option.none Option.none true =
      .ok (emptyDf ALL_DATASET_FIELDS) ∧
    (emptyDf ALL_DATASET_FIELDS).rows = [] := by
  exact ⟨rfl, rfl⟩

/-- C8 (amended): Mellon and NIH do raise on an empty remote result set —
a reported total of zero makes the final `pd.concat` of an empty list raise
`ValueError` — but NSF returns an empty canonical-schema table when its
first page carries no awards, and Sloan short-circuits a zero count to an
empty canonical table, so those two adapters can return an empty table
without raising even with `raise_on_error=true`. -/
theorem claim_C8 :
    (∀ (rm : MellonRemote) (q : Option String) (roe : Bool),
      rm.totalGrants = .ok 0 →
      Mellon.get_data rm q roe =
        .error (.valueError "No objects to concatenate")) ∧
    (∀ (rm : NIHRemote) (q : Option String) (roe : Bool),
      rm.total = .ok 0 →
      NIH.get_data rm q roe =
        .error (.valueError "No objects to concatenate")) ∧
    (∀ (rm : NSFRemote) (roe : Bool) (fuel : Nat), 0 < fuel →
      rm.award 0 = .ok Option.none →
      NSF.get_data rm roe fuel = .ok (some ⟨ALL_DATASET_FIELDS, []⟩)) ∧
    (∀ (rm : SloanRemote) (q : Option String) (fromDt toDt : Option PyDate)
        (roe : Bool),
      rm.total = .ok 0 →
      Sloan.get_data rm q fromDt toDt roe = .ok (emptyDf ALL_DATASET_FIELDS)) := by
  refine ⟨?_, ?_, ?_, ?_⟩
  · intro rm q roe ht
    rw [mellon_getData_eq rm q roe 0 ht (by intro off hoff; simp [rangeStep] at hoff)]
    rfl
  · intro rm q roe ht
    rw [nih_getData_eq rm q roe 0 ht (by omega)
      (by intro off hoff; simp [rangeStep] at hoff)]
    rfl
  · intro rm roe fuel hfuel haward
    have hchunk : NSF.get_chunk rm 0 roe =
        .ok (some (⟨ALL_DATASET_FIELDS, []⟩ : DataFrame)) := by
      unfold NSF.get_chunk
      rw [haward]
      rfl
    have hloop := nsf_loop_eq rm roe 0
      (fun _ => some (⟨ALL_DATASET_FIELDS, []⟩ : DataFrame)) fuel 0 []
      (fun j hj => by
        have hj0 : j = 0 := Nat.le_zero.mp hj
        subst hj0
        simpa using hchunk)
      (fun j hj => absurd hj (Nat.not_lt_zero j))
      (fun d hd => by injection hd with hd; rw [← hd]; decide)
      ⟨_, rfl⟩
      hfuel
    rw [nsf_getData_eq rm roe fuel _ hloop]
    rfl
  · intro rm q fromDt toDt roe ht
    rw [sloan_getData_eq rm q fromDt toDt roe 0 ht
      (by intro off hoff; simp [rangeStep] at hoff)]
    rfl

/-- Witness for C8: a concrete Mellon run with zero total raises the concat
`ValueError`. -/
theorem claim_C8_witness :
    Mellon.get_data ⟨.ok 0, fun _ => .ok [], fun _ => .ok .none⟩
      Option.none true = .error (.valueError "No objects to concatenate") :=
  claim_C8.1 ⟨.ok 0, fun _ => .ok [], fun _ => .ok .none⟩ Option.none true rfl

/-- A Mellon remote with two pages, both failing (transport error). -/
def mellonAllFailRemote : MellonRemote :=
  ⟨.ok 200, fun _ => .error (.transport 500), fun _ => .ok .none⟩

/-- Counterexample to C3: with `raise_on_error=false` and every page
failing, `Mellon.get_data` does not return an empty canonical table — the
final `pd.concat` of the empty result list raises `ValueError`. -/
theorem counter_C3 :
    Mellon.get_data mellonAllFailRemote (some "q") false =
      .error (.valueError "No objects to concatenate") := by
  rfl

/-- C3 (amended): with `raise_on_error=false`, a page whose fetch fails is
skipped and the remaining pages are concatenated without exception — for
Mellon, NIH and Sloan via the offset loop, and for NSF via the fuel loop
(the `None` chunk is appended and then dropped by `pd.concat`).  But when
every page fails: only Sloan returns an empty canonical-schema table;
Mellon and NIH raise `ValueError` from concatenating an empty list; NSF
never terminates (no successful short page ever breaks the loop); and
Templeton raises `NameError` (its handler falls through to code using the
unassigned local `df`). -/
theorem claim_C3 :
    (∀ (rm : MellonRemote) (q : Option String) (t j : Nat)
        (g : Nat → DataFrame),
      rm.totalGrants = .ok t → j ∈ rangeStep t 100 →
      Mellon.get_chunk rm q j false = .ok Option.none →
      (∀ off ∈ rangeStep t 100, off ≠ j →
        Mellon.get_chunk rm q off false = .ok (some (g off))) →
      Mellon.get_data rm q false =
        pd_concat (((rangeStep t 100).filter (fun o => !(o == j))).map g) ∧
      ((∃ o ∈ rangeStep t 100, o ≠ j) →
        ∃ df, Mellon.get_data rm q false = .ok df)) ∧
    (∀ (rm : NIHRemote) (q : Option String) (t j : Nat)
        (g : Nat → DataFrame),
      rm.total = .ok t → t < 10000 → j ∈ rangeStep t 500 →
      NIH.get_chunk rm q j false = .ok Option.none →
      (∀ off ∈ rangeStep t 500, off ≠ j →
        NIH.get_chunk rm q off false = .ok (some (g off))) →
      NIH.get_data rm q false =
        pd_concat (((rangeStep t 500).filter (fun o => !(o == j))).map g)) ∧
    (∀ (rm : SloanRemote) (q : Option String) (t j : Nat)
        (g : Nat → DataFrame),
      rm.total = .ok t → j ∈ rangeStep t 3000 →
      Sloan.get_chunk rm q j false = .ok Option.none →
      (∀ off ∈ rangeStep t 3000, off ≠ j →
        Sloan.get_chunk rm q off false = .ok (some (g off))) →
      (∃ o ∈ rangeStep t 3000, o ≠ j) →
      Sloan.get_data rm q Option.none Option.none false =
        pd_concat (((rangeStep t 3000).filter (fun o => !(o == j))).map g)) ∧
    (∀ (rm : NSFRemote) (e : Nat → Option DataFrame) (k fuel : Nat),
      (∀ j ≤ k, NSF.get_chunk rm (25 * j) false = .ok (e j)) →
      (∀ j < k, ∀ d, e j = some d → ¬ d.rows.length < 25) →
      (∀ d, e k = some d → d.rows.length < 25) →
      (∃ d, e k = some d) →
      k < fuel →
      NSF.get_data rm false fuel =
        (pd_concatO ((List.range (k + 1)).map e)).map
          (fun d => some (d.dropDuplicatesBy "id"))) ∧
    (∀ (rm : MellonRemote) (q : Option String) (t : Nat),
      rm.totalGrants = .ok t →
      (∀ off ∈ rangeStep t 100,
        Mellon.get_chunk rm q off false = .ok Option.none) →
      Mellon.get_data rm q false =
        .error (.valueError "No objects to concatenate")) ∧
    (∀ (rm : NIHRemote) (q : Option String) (t : Nat),
      rm.total = .ok t → t < 10000 →
      (∀ off ∈ rangeStep t 500,
        NIH.get_chunk rm q off false = .ok Option.none) →
      NIH.get_data rm q false =
        .error (.valueError "No objects to concatenate")) ∧
    (∀ (rm : SloanRemote) (q : Option String) (fromDt toDt : Option PyDate)
        (t : Nat),
      rm.total = .ok t →
      (∀ off ∈ rangeStep t 3000,
        Sloan.get_chunk rm q off false = .ok Option.none) →
      Sloan.get_data rm q fromDt toDt false =
        .ok (emptyDf ALL_DATASET_FIELDS)) ∧
    (∀ (rm : NSFRemote) (fuel : Nat),
      (∀ off, NSF.get_chunk rm off false = .ok Option.none) →
      NSF.get_data rm false fuel = .ok Option.none) ∧
    (∀ (rm : TempletonRemote) (q : Option String) (e : PyErr),
      rm.searchLinks = .error e →
      Templeton.get_data rm q Option.none Option.none false =
        .error (.nameError "df")) := by
  have hfm : ∀ (fetch : Nat → Except PyErr (Option DataFrame)) (offs : List Nat)
      (j : Nat) (g : Nat → DataFrame),
      fetch j = .ok Option.none →
      (∀ off ∈ offs, off ≠ j → fetch off = .ok (some (g off))) →
      offs.filterMap (fun o =>
        match fetch o with
        | .ok v => v
        | .error _ => Option.none) = (offs.filter (fun o => !(o == j))).map g := by
    intro fetch offs j g hfail hok
    apply filterMap_eq_filter_map
    intro o ho
    by_cases hoj : o = j
    · subst hoj
      rw [hfail, if_pos rfl]
    · rw [hok o ho hoj, if_neg hoj]
  refine ⟨?_, ?_, ?_, ?_, ?_, ?_, ?_, ?_, ?_⟩
  · intro rm q t j g ht hj hfail hok
    have hex : ∀ off ∈ rangeStep t 100,
        ∃ r, Mellon.get_chunk rm q off false = .ok r := by
      intro off hoff
      by_cases hoj : off = j
      · subst hoj; exact ⟨_, hfail⟩
      · exact ⟨_, hok off hoff hoj⟩
    have heq := mellon_getData_eq rm q false t ht hex
    rw [hfm _ _ j g hfail hok] at heq
    refine ⟨heq, ?_⟩
    intro ⟨o, ho, hoj⟩
    rw [heq]
    apply pd_concat_ok
    have : o ∈ (rangeStep t 100).filter (fun o => !(o == j)) := by
      rw [List.mem_filter]
      exact ⟨ho, by simp [hoj]⟩
    intro hnil
    rw [List.map_eq_nil_iff] at hnil
    rw [hnil] at this
    exact absurd this (List.not_mem_nil o)
  · intro rm q t j g ht hlt hj hfail hok
    have hex : ∀ off ∈ rangeStep t 500,
        ∃ r, NIH.get_chunk rm q off false = .ok r := by
      intro off hoff
      by_cases hoj : off = j
      · subst hoj; exact ⟨_, hfail⟩
      · exact ⟨_, hok off hoff hoj⟩
    have heq := nih_getData_eq rm q false t ht hlt hex
    rw [hfm _ _ j g hfail hok] at heq
    exact heq
  · intro rm q t j g ht hj hfail hok hne
    have hex : ∀ off ∈ rangeStep t 3000,
        ∃ r, Sloan.get_chunk rm q off false = .ok r := by
      intro off hoff
      by_cases hoj : off = j
      · subst hoj; exact ⟨_, hfail⟩
      · exact ⟨_, hok off hoff hoj⟩
    have heq := sloan_getData_eq rm q Option.none Option.none false t ht hex
    rw [hfm _ _ j g hfail hok] at heq
    obtain ⟨o, ho, hoj⟩ := hne
    have hmem : o ∈ (rangeStep t 3000).filter (fun o => !(o == j)) := by
      rw [List.mem_filter]
      exact ⟨ho, by simp [hoj]⟩
    rw [heq]
    cases hcl : (rangeStep t 3000).filter (fun o => !(o == j)) with
    | nil => rw [hcl] at hmem; exact absurd hmem (List.not_mem_nil o)
    | cons c rest =>
      simp only [List.map_cons]
      cases hconc : pd_concat (g c :: rest.map g) with
      | ok df => simp [hconc, except_bind_ok, pure, Except.pure]
      | error e2 => simp [hconc, except_bind_err]
  · intro rm e k fuel hok hlong hshort hsome hfuel
    have hok0 : ∀ j ≤ k, NSF.get_chunk rm (0 + 25 * j) false = .ok (e j) := by
      intro j hj
      rw [Nat.zero_add]
      exact hok j hj
    have hloop := nsf_loop_eq rm false k e fuel 0 [] hok0 hlong hshort hsome hfuel
    rw [List.nil_append] at hloop
    exact nsf_getData_eq rm false fuel _ hloop
  · intro rm q t ht hfail
    have heq := mellon_getData_eq rm q false t ht
      (fun off hoff => ⟨_, hfail off hoff⟩)
    rw [filterMap_all_none _ _ (fun o ho => by rw [hfail o ho])] at heq
    rw [heq]
    rfl
  · intro rm q t ht hlt hfail
    have heq := nih_getData_eq rm q false t ht hlt
      (fun off hoff => ⟨_, hfail off hoff⟩)
    rw [filterMap_all_none _ _ (fun o ho => by rw [hfail o ho])] at heq
    rw [heq]
    rfl
  · intro rm q fromDt toDt t ht hfail
    have heq := sloan_getData_eq rm q fromDt toDt false t ht
      (fun off hoff => ⟨_, hfail off hoff⟩)
    rw [filterMap_all_none _ _ (fun o ho => by rw [hfail o ho])] at heq
    exact heq
  · intro rm fuel hfail
    unfold NSF.get_data
    rw [nsf_loop_allfail rm fuel 0 [] hfail]
    rfl
  · intro rm q e herr
    unfold Templeton.get_data
    rw [herr]
    rfl

/-- A Mellon remote reporting 200 grants (two pages): the first page returns
one entity, the second page's fetch fails with a transport error. -/
def mellonC3Remote : MellonRemote :=
  ⟨.ok 200,
   fun off => if off == 0 then
       .ok [[("title", .str "T"), ("grantMakingArea", .str "G"),
         ("description", .str "D"), ("dateAwarded", .str "2020-01-05"),
         ("id", .str "A"), ("grantee", .str "I")]]
     else .error (.transport 500),
   fun _ => .ok (.float 1)⟩

/-- The table Mellon builds from that remote's first page. -/
def mellonC3Chunk : DataFrame :=
  match Mellon.get_chunk mellonC3Remote (some "q") 0 false with
  | .ok (some df) => df
  | _ => ⟨[], []⟩

/-- With `raise_on_error=false` the failed second page is skipped and the run
still succeeds, returning the concatenation of the surviving pages. -/
theorem claim_C3_witness :
    Mellon.get_data mellonC3Remote (some "q") false =
      pd_concat (((rangeStep 200 100).filter (fun o => !(o == 100))).map
        (fun _ => mellonC3Chunk)) ∧
    ∃ df, Mellon.get_data mellonC3Remote (some "q") false = .ok df := by
  have h := claim_C3.1 mellonC3Remote (some "q") 200 100
    (fun _ => mellonC3Chunk) rfl (by decide) rfl (by decide)
  exact ⟨h.1, h.2 ⟨0, by decide, by decide⟩⟩

/-- C6: NSF exposes no count query; its `while True` loop terminates the
first time a fetched page is strictly shorter than the page size 25.  If
page `k` is the first short page (pages before it have at least 25 rows and
every page up to `k` fetches successfully), the result is exactly the
concatenation of pages `0..k` (id-deduplicated, as the final pipeline step),
and no request beyond offset `25*k` is issued: any remote agreeing with the
first `k+1` page responses yields the same result. -/
theorem claim_C6 (rm : NSFRemote) (roe : Bool) (e : Nat → DataFrame)
    (k fuel : Nat)
    (hok : ∀ j ≤ k, NSF.get_chunk rm (25 * j) roe = .ok (some (e j)))
    (hfull : ∀ j < k, 25 ≤ (e j).rows.length)
    (hshort : (e k).rows.length < 25)
    (hfuel : k < fuel) :
    NSF.get_data rm roe fuel =
      (pd_concat ((List.range (k + 1)).map e)).map
        (fun d => some (d.dropDuplicatesBy "id")) ∧
    ∀ rm2 : NSFRemote,
      (∀ j ≤ k, rm2.award (25 * j) = rm.award (25 * j)) →
      NSF.get_data rm2 roe fuel = NSF.get_data rm roe fuel := by
  have main : ∀ r : NSFRemote,
      (∀ j ≤ k, NSF.get_chunk r (25 * j) roe = .ok (some (e j))) →
      NSF.get_data r roe fuel =
        (pd_concat ((List.range (k + 1)).map e)).map
          (fun d => some (d.dropDuplicatesBy "id")) := by
    intro r hokr
    have hok0 : ∀ j ≤ k, NSF.get_chunk r (0 + 25 * j) roe =
        .ok ((fun j => some (e j)) j) := by
      intro j hj
      rw [Nat.zero_add]
      exact hokr j hj
    have hloop := nsf_loop_eq r roe k (fun j => some (e j)) fuel 0 [] hok0
      (fun j hj d hd => by
        injection hd with hd
        subst hd
        have := hfull j hj
        omega)
      (fun d hd => by
        injection hd with hd
        subst hd
        exact hshort)
      ⟨e k, rfl⟩ hfuel
    rw [List.nil_append] at hloop
    have heq := nsf_getData_eq r roe fuel _ hloop
    rw [heq]
    have hmm : (List.range (k + 1)).map (fun j => some (e j)) =
        ((List.range (k + 1)).map e).map some := by
      rw [List.map_map]
      rfl
    rw [hmm]
    rfl
  have h1 := main rm hok
  refine ⟨h1, ?_⟩
  intro rm2 h2
  have h2ok : ∀ j ≤ k, NSF.get_chunk rm2 (25 * j) roe = .ok (some (e j)) := by
    intro j hj
    rw [nsf_get_chunk_congr rm rm2 (25 * j) roe (h2 j hj)]
    exact hok j hj
  rw [main rm2 h2ok, h1]

/-- One NSF award record with every metadata key the formatter touches. -/
def nsfC6Row : Row :=
  [("id", .str "N1"), ("date", .str "2020-01-05"),
   ("startDate", .str "2020-01-05"), ("expDate", .str "2021-02-03"),
   ("title", .str "T"), ("awardeeName", .str "I"),
   ("piFirstName", .str "Ada"), ("piLastName", .str "L"),
   ("cfdaNumber", .str "47.070"), ("estimatedTotalAmt", .str "100"),
   ("abstractText", .str "A"), ("piEmail", .str "a@b.c")]

/-- An NSF remote whose every page holds that single record (so page 0 is
already shorter than 25 rows and the loop stops immediately). -/
def nsfC6Remote : NSFRemote := ⟨fun _ => .ok (some [nsfC6Row])⟩

/-- The formatted page-0 table of that remote. -/
def nsfC6Chunk : DataFrame :=
  match NSF.get_chunk nsfC6Remote 0 true with
  | .ok (some df) => df
  | _ => ⟨[], []⟩

/-- On the concrete one-short-page remote the run returns exactly page 0
(deduplicated), and a remote that fails from offset 25 onward — but agrees
on page 0 — produces the identical result: offset 25 is never requested. -/
theorem claim_C6_witness :
    NSF.get_data nsfC6Remote true 1 =
      (pd_concat ((List.range 1).map (fun _ => nsfC6Chunk))).map
        (fun d => some (d.dropDuplicatesBy "id")) ∧
    NSF.get_data
        ⟨fun off => if off == 0 then .ok (some [nsfC6Row])
          else .error (.transport 500)⟩ true 1 =
      NSF.get_data nsfC6Remote true 1 := by
  have h := claim_C6 nsfC6Remote true (fun _ => nsfC6Chunk) 0 1
    (fun j hj => by
      have hj0 := Nat.le_zero.mp hj
      subst hj0
      rfl)
    (fun j hj => absurd hj (Nat.not_lt_zero j))
    (by decide) (by decide)
  exact ⟨h.1, h.2 _ (fun j hj => by
    have hj0 := Nat.le_zero.mp hj
    subst hj0
    rfl)⟩
